import Mathlib

/-!
Verification development for the Keystone CI command-line client
(`keystone-ci.py`).

The client triggers a remote test-suite run over HTTP, polls a status
endpoint until a terminal state or a timeout, renders the resulting status
snapshot in one of three formats, and maps outcomes to process exit codes.

Shallow embedding conventions used below:

* JSON values (Python objects produced by `json.loads` / consumed by
  `json.dumps`) are modelled by the inductive type `Json`.  Numbers are
  integers: every numeric field of this client is a test count; floating
  point values are outside the embedding (the parser rejects them).
* `json.dumps(data, indent=2)` is modelled by `dumpsV` / `json_dumps`,
  including CPython's `ensure_ascii=True` escaping (`\uXXXX` with surrogate
  pairs above the BMP) and the `indent=2` layout.  `json.loads` is modelled
  by the fuel-indexed recursive-descent parser `parseV` / `json_loads`;
  duplicate object keys overwrite earlier ones exactly as Python dicts do.
* The HTTP boundary is explicit: functions take the `HttpResponse` the
  remote service returned.  `requests.Response.raise_for_status` raises
  `HTTPError` exactly for status codes in `[400, 600)` (4xx client errors
  and 5xx server errors), which `raise_for_status` models.
* The polling loop `wait_for_completion` is modelled with an idealized
  clock: a status fetch is instantaneous and `time.sleep(poll_interval)`
  advances the clock by exactly `poll_interval`, so the elapsed time before
  poll tick `k` is `k * poll_interval`.  The recursion carries fuel; fuel
  `timeout + 2` is exhausted only when `poll_interval = 0` (where the
  idealized Python loop would spin without the clock advancing).
* Python exceptions are modelled by `Option`/`Except`: `none`/`.error`
  means the Python code raised.  `print` output is modelled as a list of
  strings, one entry per `print` call (embedded newlines kept).
-/

/-- JSON values as handled by the client: the decoded bodies of the trigger
and status endpoints.  Numbers are integers (all numeric fields of the
client are counts); floats are outside the embedding. -/
inductive Json where
  | null
  | bool (b : Bool)
  | num (n : Int)
  | str (s : String)
  | arr (elems : List Json)
  | obj (fields : List (String × Json))

/-- Decimal digits of a positive number, most significant first; the first
argument is fuel (any value `≥ n` is enough). -/
def natCharsAux : Nat → Nat → List Char
  | 0, _ => []
  | fuel + 1, n => if n = 0 then [] else natCharsAux fuel (n / 10) ++ [Nat.digitChar (n % 10)]

/-- Decimal representation of a natural number, as Python `str`/`repr` print
it. -/
def natChars (n : Nat) : List Char :=
  if n = 0 then ['0'] else natCharsAux n n

/-- Decimal representation of an integer, as Python `str(int)` prints it
(also the form `json.dumps` emits for ints). -/
def intChars : Int → List Char
  | .ofNat n => natChars n
  | .negSucc m => '-' :: natChars (m + 1)

/-- String form of a natural number. -/
def natStr (n : Nat) : String := String.mk (natChars n)

/-- String form of an integer. -/
def intStr (i : Int) : String := String.mk (intChars i)

/-- Lowercase hexadecimal digits of `n`, fixed width 4, as CPython's
`\uXXXX` escapes print them. -/
def hex4 (n : Nat) : List Char :=
  [Nat.digitChar (n / 4096 % 16), Nat.digitChar (n / 256 % 16),
   Nat.digitChar (n / 16 % 16), Nat.digitChar (n % 16)]

/-- Encoding of one character inside a JSON string literal, following
CPython's `py_encode_basestring_ascii` (used by `json.dumps` with the
default `ensure_ascii=True`): `"` and `\` and the named control escapes,
`\u00XX` for other control characters, raw ASCII for `0x20..0x7e`, and
`\uXXXX` (with a surrogate pair above `0xFFFF`) for everything else. -/
def encChar (c : Char) : List Char :=
  let n := c.toNat
  if c = '\"' then ['\\', '\"']
  else if c = '\\' then ['\\', '\\']
  else if n = 8 then ['\\', 'b']
  else if n = 9 then ['\\', 't']
  else if n = 10 then ['\\', 'n']
  else if n = 12 then ['\\', 'f']
  else if n = 13 then ['\\', 'r']
  else if n < 32 then '\\' :: 'u' :: hex4 n
  else if n < 127 then [c]
  else if n < 65536 then '\\' :: 'u' :: hex4 n
  else '\\' :: 'u' :: hex4 (55296 + (n - 65536) / 1024) ++
       '\\' :: 'u' :: hex4 (56320 + (n - 65536) % 1024)

/-- Encoding of a list of characters inside a JSON string literal. -/
def encChars : List Char → List Char
  | [] => []
  | c :: cs => encChar c ++ encChars cs

/-- JSON string literal for `s`, quotes included. -/
def encStr (s : String) : List Char :=
  '\"' :: (encChars s.data ++ ['\"'])

/-- Newline plus the indentation of nesting level `lvl`, as `json.dumps`
with `indent=2` emits between items. -/
def nlIndent (lvl : Nat) : List Char :=
  '\n' :: List.replicate (2 * lvl) ' '

mutual

/-- Model of `json.dumps(v, indent=2)` at nesting level `lvl`: the exact
character stream CPython emits (default separators `(",", ": ")`, default
`ensure_ascii=True`). -/
def dumpsV : Nat → Json → List Char
  | _, .null => ['n', 'u', 'l', 'l']
  | _, .bool true => ['t', 'r', 'u', 'e']
  | _, .bool false => ['f', 'a', 'l', 's', 'e']
  | _, .num i => intChars i
  | _, .str s => encStr s
  | _, .arr [] => ['[', ']']
  | lvl, .arr (x :: xs) =>
      '[' :: (nlIndent (lvl + 1) ++ dumpsV (lvl + 1) x ++ dumpsATail (lvl + 1) xs ++
        nlIndent lvl ++ [']'])
  | _, .obj [] => ['\x7b', '\x7d']
  | lvl, .obj ((k, v) :: fs) =>
      '\x7b' :: (nlIndent (lvl + 1) ++ encStr k ++ ':' :: ' ' :: dumpsV (lvl + 1) v ++
        dumpsOTail (lvl + 1) fs ++ nlIndent lvl ++ ['\x7d'])

/-- Second and later array items: `","`, newline indent, the item. -/
def dumpsATail : Nat → List Json → List Char
  | _, [] => []
  | lvl, x :: xs => ',' :: (nlIndent lvl ++ dumpsV lvl x ++ dumpsATail lvl xs)

/-- Second and later object entries: `","`, newline indent, `"key": value`. -/
def dumpsOTail : Nat → List (String × Json) → List Char
  | _, [] => []
  | lvl, (k, v) :: fs =>
      ',' :: (nlIndent lvl ++ encStr k ++ ':' :: ' ' :: dumpsV lvl v ++ dumpsOTail lvl fs)

end

/-- Model of `json.dumps(v, indent=2)` as called on line 125 of the source
(and line 69 for the payload log). -/
def json_dumps (v : Json) : String := String.mk (dumpsV 0 v)

/-- Whitespace characters skipped by `json.loads` (its `WHITESPACE` class). -/
def isWs (c : Char) : Bool :=
  c = ' ' || c = '\t' || c = '\n' || c = '\r'

/-- Skip leading JSON whitespace. -/
def skipWs : List Char → List Char
  | [] => []
  | c :: cs => if isWs c then skipWs cs else c :: cs

/-- Value of one hexadecimal digit, upper or lower case, as accepted inside
`\uXXXX` escapes by `json.loads`. -/
def hexVal (c : Char) : Option Nat :=
  if '0' ≤ c ∧ c ≤ '9' then some (c.toNat - 48)
  else if 'a' ≤ c ∧ c ≤ 'f' then some (c.toNat - 87)
  else if 'A' ≤ c ∧ c ≤ 'F' then some (c.toNat - 55)
  else none

/-- Characters reachable through a single-character JSON escape. -/
def escChar (c : Char) : Option Char :=
  if c = '\"' then some '\"'
  else if c = '\\' then some '\\'
  else if c = '/' then some '/'
  else if c = 'b' then some (Char.ofNat 8)
  else if c = 'f' then some (Char.ofNat 12)
  else if c = 'n' then some '\n'
  else if c = 'r' then some (Char.ofNat 13)
  else if c = 't' then some '\t'
  else none

/-- Prepend one decoded character to a string-scan result. -/
def consStr (c : Char) : Option (List Char × List Char) → Option (List Char × List Char)
  | some (cs, rest) => some (c :: cs, rest)
  | none => none

mutual

/-- Body of a JSON string literal after the opening quote, following
CPython `py_scanstring` in strict mode: raw characters must be `≥ 0x20`,
escapes are the named ones plus `\uXXXX`, and a high surrogate escape is
combined with the following low surrogate escape.  (CPython keeps a lone
surrogate escape as a lone-surrogate `str`; such a string has no
counterpart in Lean `String`, so the model rejects it — `json.dumps`
never emits one.)  Returns the decoded characters and the input after the
closing quote. -/
def parseStrBody : List Char → Option (List Char × List Char)
  | [] => none
  | c :: r =>
    if c = '\"' then some ([], r)
    else if c = '\\' then parseEsc r
    else if 32 ≤ c.toNat then consStr c (parseStrBody r)
    else none

/-- An escape sequence, after the backslash. -/
def parseEsc : List Char → Option (List Char × List Char)
  | [] => none
  | e :: r2 =>
    if e = 'u' then parseHexEsc r2
    else
      match escChar e with
      | some c2 => consStr c2 (parseStrBody r2)
      | none => none

/-- A `\uXXXX` escape, after the `\u`. -/
def parseHexEsc : List Char → Option (List Char × List Char)
  | h1 :: h2 :: h3 :: h4 :: r3 =>
    match hexVal h1, hexVal h2, hexVal h3, hexVal h4 with
    | some a, some b, some c0, some d =>
      let n := ((a * 16 + b) * 16 + c0) * 16 + d
      if n < 55296 ∨ (57343 < n ∧ n < 65536) then consStr (Char.ofNat n) (parseStrBody r3)
      else if n < 56320 then parseLowSurrogate n r3
      else none
    | _, _, _, _ => none
  | _ => none

/-- The low half of a surrogate pair: a second `\uXXXX` escape whose value
lies in `[0xDC00, 0xE000)`, combined with the pending high half `n`. -/
def parseLowSurrogate : Nat → List Char → Option (List Char × List Char)
  | n, b1 :: b2 :: g1 :: g2 :: g3 :: g4 :: r5 =>
    if b1 = '\\' ∧ b2 = 'u' then
      match hexVal g1, hexVal g2, hexVal g3, hexVal g4 with
      | some a2, some b2v, some c2v, some d2 =>
        let m := ((a2 * 16 + b2v) * 16 + c2v) * 16 + d2
        if 56320 ≤ m ∧ m < 57344 then
          consStr (Char.ofNat (65536 + (n - 55296) * 1024 + (m - 56320))) (parseStrBody r5)
        else none
      | _, _, _, _ => none
    else none
  | _, _ => none

end


/-- Longest leading run of decimal digits. -/
def takeDigits : List Char → List Char × List Char
  | [] => ([], [])
  | c :: cs =>
    if c.isDigit then
      let p := takeDigits cs
      (c :: p.1, p.2)
    else ([], c :: cs)

/-- Numeric value of a digit string (most significant first). -/
def digitsToNat (ds : List Char) : Nat :=
  ds.foldl (fun a c => a * 10 + (c.toNat - 48)) 0

/-- Leading JSON natural-number literal: one or more digits, no redundant
leading zero (JSON's `0 | [1-9][0-9]*`).  A following `.`, `e` or `E`
would start a float literal, which is outside this embedding, so the
parse is rejected there. -/
def parseNat (cs : List Char) : Option (Nat × List Char) :=
  match takeDigits cs with
  | ([], _) => none
  | (d :: ds, r) =>
    if d = '0' ∧ ds ≠ [] then none
    else
      match r with
      | e :: _ => if e = '.' ∨ e = 'e' ∨ e = 'E' then none else some (digitsToNat (d :: ds), r)
      | [] => some (digitsToNat (d :: ds), [])

/-- Insert a key into a Python dict under construction: an existing key
keeps its position and gets the new value, a new key is appended.  This is
how `json.loads` resolves duplicate keys inside one JSON object. -/
def objUpd : List (String × Json) → String → Json → List (String × Json)
  | [], k, v => [(k, v)]
  | (k0, v0) :: fs, k, v =>
    if k0 = k then (k0, v) :: fs else (k0, v0) :: objUpd fs k v

/-- Build a Python dict from the parsed key/value pairs, in order. -/
def buildDict (ps : List (String × Json)) : List (String × Json) :=
  ps.foldl (fun acc p => objUpd acc p.1 p.2) []

/-- Require the literal characters `lit` at the front of the input (the
scanner matching the tails of `null`, `true`, `false`). -/
def dropLit : List Char → List Char → Option (List Char)
  | [], cs => some cs
  | _ :: _, [] => none
  | l :: ls, c :: cs => if c = l then dropLit ls cs else none

mutual

/-- Model of `json.loads`'s value scanner.  The first argument is fuel;
every recursive call strictly decreases it, and `json_loads` supplies
enough for any input (one unit per character plus one). -/
def parseV : Nat → List Char → Option (Json × List Char)
  | 0, _ => none
  | fuel + 1, cs =>
    match skipWs cs with
    | [] => none
    | c :: r =>
      if c = 'n' then
        match dropLit ['u', 'l', 'l'] r with
        | some r2 => some (.null, r2)
        | none => none
      else if c = 't' then
        match dropLit ['r', 'u', 'e'] r with
        | some r2 => some (.bool true, r2)
        | none => none
      else if c = 'f' then
        match dropLit ['a', 'l', 's', 'e'] r with
        | some r2 => some (.bool false, r2)
        | none => none
      else if c = '\"' then
        match parseStrBody r with
        | some (cs1, rest) => some (.str (String.mk cs1), rest)
        | none => none
      else if c = '[' then
        match skipWs r with
        | [] => none
        | c2 :: r2 =>
          if c2 = ']' then some (.arr [], r2)
          else
            match parseV fuel (c2 :: r2) with
            | some (v, r3) =>
              match parseArrTail fuel r3 with
              | some (vs, r4) => some (.arr (v :: vs), r4)
              | none => none
            | none => none
      else if c = '\x7b' then
        match skipWs r with
        | [] => none
        | c2 :: r2 =>
          if c2 = '\x7d' then some (.obj [], r2)
          else if c2 = '\"' then
            match parseStrBody r2 with
            | some (kcs, r3) =>
              match skipWs r3 with
              | [] => none
              | c3 :: r4 =>
                if c3 = ':' then
                  match parseV fuel r4 with
                  | some (v, r5) =>
                    match parseObjTail fuel r5 with
                    | some (ps, r6) =>
                        some (.obj (buildDict ((String.mk kcs, v) :: ps)), r6)
                    | none => none
                  | none => none
                else none
            | none => none
          else none
      else if c = '-' then
        match parseNat r with
        | some (n, rest) => some (.num (-(n : Int)), rest)
        | none => none
      else if c.isDigit then
        match parseNat (c :: r) with
        | some (n, rest) => some (.num (n : Int), rest)
        | none => none
      else none

/-- Array items after the first: `,` and a value, repeatedly, then `]`. -/
def parseArrTail : Nat → List Char → Option (List Json × List Char)
  | 0, _ => none
  | fuel + 1, cs =>
    match skipWs cs with
    | [] => none
    | c :: r =>
      if c = ']' then some ([], r)
      else if c = ',' then
        match parseV fuel r with
        | some (v, r2) =>
          match parseArrTail fuel r2 with
          | some (vs, r3) => some (v :: vs, r3)
          | none => none
        | none => none
      else none

/-- Object entries after the first: `,` then `"key": value`, repeatedly,
then the closing brace.  Returns the raw pairs in source order. -/
def parseObjTail : Nat → List Char → Option (List (String × Json) × List Char)
  | 0, _ => none
  | fuel + 1, cs =>
    match skipWs cs with
    | [] => none
    | c :: r =>
      if c = '\x7d' then some ([], r)
      else if c = ',' then
        match skipWs r with
        | [] => none
        | c2 :: r2 =>
          if c2 = '\"' then
            match parseStrBody r2 with
            | some (kcs, r3) =>
              match skipWs r3 with
              | [] => none
              | c3 :: r4 =>
                if c3 = ':' then
                  match parseV fuel r4 with
                  | some (v, r5) =>
                    match parseObjTail fuel r5 with
                    | some (ps, r6) => some ((String.mk kcs, v) :: ps, r6)
                    | none => none
                  | none => none
                else none
            | none => none
          else none
      else none

end

/-- Model of `json.loads`: scan one value, then require that only
whitespace remains (CPython raises `Extra data` otherwise).  `none` models
a raised `json.JSONDecodeError`. -/
def json_loads (s : String) : Option Json :=
  match parseV (s.data.length + 1) s.data with
  | some (v, rest) => if skipWs rest = [] then some v else none
  | none => none

/-- Pairwise-distinct keys of an object, key list order preserved. -/
def keysNodup : List (String × Json) → Bool
  | [] => true
  | (k, _) :: fs => !(fs.any fun p => p.1 == k) && keysNodup fs

mutual

/-- Well-formed JSON values: every object has pairwise-distinct keys.
These are exactly the values that arise from Python data (a dict cannot
hold a key twice). -/
def wfV : Json → Bool
  | .null => true
  | .bool _ => true
  | .num _ => true
  | .str _ => true
  | .arr xs => wfA xs
  | .obj fs => keysNodup fs && wfO fs

/-- All array elements well formed. -/
def wfA : List Json → Bool
  | [] => true
  | x :: xs => wfV x && wfA xs

/-- All object values well formed. -/
def wfO : List (String × Json) → Bool
  | [] => true
  | (_, v) :: fs => wfV v && wfO fs

end

mutual

/-- Fuel sufficient for `parseV` to scan the `dumpsV` output of a value. -/
def jfuelV : Json → Nat
  | .null => 1
  | .bool _ => 1
  | .num _ => 1
  | .str _ => 1
  | .arr [] => 1
  | .arr (x :: xs) => 1 + jfuelV x + jfuelTA xs
  | .obj [] => 1
  | .obj ((_, v) :: fs) => 1 + jfuelV v + jfuelTO fs

/-- Fuel sufficient for `parseArrTail` on the remaining items. -/
def jfuelTA : List Json → Nat
  | [] => 1
  | x :: xs => 1 + jfuelV x + jfuelTA xs

/-- Fuel sufficient for `parseObjTail` on the remaining entries. -/
def jfuelTO : List (String × Json) → Nat
  | [] => 1
  | (_, v) :: fs => 1 + jfuelV v + jfuelTO fs

end

/-- Lookup in a Python dict modelled as an ordered association list with
pairwise-distinct keys (the invariant `json.loads` and all dict literals of
the source maintain). -/
def lookupField : List (String × Json) → String → Option Json
  | [], _ => none
  | (k, v) :: fs, key => if k = key then some v else lookupField fs key

/-- Model of Python `data[key]` / `data.get(key)` on a decoded JSON value:
`none` models a raised `KeyError` (or a `TypeError` on a non-dict). -/
def jGet (data : Json) (key : String) : Option Json :=
  match data with
  | .obj fs => lookupField fs key
  | _ => none

/-- Model of Python `x > 0` type admissibility: ints compare, and `bool` is
an `int` subclass (`True` counts as `1`); for the other JSON types the
comparison raises `TypeError`, modelled as `none`. -/
def asInt : Json → Option Int
  | .num n => some n
  | .bool b => some (if b then 1 else 0)
  | _ => none

/-- Python truthiness of a decoded JSON value, as used by
`if data.get('run_url'):` and `if data.get('tests'):`. -/
def pyTruthy : Json → Bool
  | .null => false
  | .bool b => b
  | .num n => n != 0
  | .str s => s != ""
  | .arr xs => !xs.isEmpty
  | .obj fs => !fs.isEmpty

/-- Escaping of one character inside Python `repr` of a string, with `q`
the chosen quote character.  Faithful for the backslash, the quote,
`\n`/`\r`/`\t`, and other C0 controls and DEL as `\xHH`; other characters
are kept raw (Python additionally escapes non-printable code points above
ASCII, which never occur in this client's data and are not modelled). -/
def pyReprStrChar (q : Char) (c : Char) : List Char :=
  if c = '\\' then ['\\', '\\']
  else if c = q then ['\\', q]
  else if c.toNat = 10 then ['\\', 'n']
  else if c.toNat = 13 then ['\\', 'r']
  else if c.toNat = 9 then ['\\', 't']
  else if c.toNat < 32 ∨ c.toNat = 127 then
    ['\\', 'x', Nat.digitChar (c.toNat / 16 % 16), Nat.digitChar (c.toNat % 16)]
  else [c]

/-- Python `repr` of a string: single quotes, switching to double quotes
when the string contains a single quote but no double quote. -/
def pyReprStr (s : String) : List Char :=
  let q := if (s.data.any fun c => c == Char.ofNat 39) ∧
              ¬(s.data.any fun c => c == '\"') then '\"' else Char.ofNat 39
  q :: ((s.data.map (pyReprStrChar q)).flatten ++ [q])

mutual

/-- Python `repr` of a decoded JSON value. -/
def pyReprV : Json → List Char
  | .null => ['N', 'o', 'n', 'e']
  | .bool true => ['T', 'r', 'u', 'e']
  | .bool false => ['F', 'a', 'l', 's', 'e']
  | .num i => intChars i
  | .str s => pyReprStr s
  | .arr xs => '[' :: (pyReprItems xs ++ [']'])
  | .obj fs => '\x7b' :: (pyReprFields fs ++ ['\x7d'])

/-- Comma-separated `repr` of list items. -/
def pyReprItems : List Json → List Char
  | [] => []
  | [x] => pyReprV x
  | x :: xs => pyReprV x ++ ',' :: ' ' :: pyReprItems xs

/-- Comma-separated `repr` of dict entries. -/
def pyReprFields : List (String × Json) → List Char
  | [] => []
  | [(k, v)] => pyReprStr k ++ ':' :: ' ' :: pyReprV v
  | (k, v) :: fs => pyReprStr k ++ ':' :: ' ' :: pyReprV v ++ ',' :: ' ' :: pyReprFields fs

end

/-- Python `str()` of a decoded JSON value, as f-string interpolation
(`f"...{value}..."`) renders it: a `str` is inserted verbatim, everything
else through `repr`. -/
def pyStrOf (v : Json) : String :=
  match v with
  | .str s => s
  | _ => String.mk (pyReprV v)

/-- An HTTP response as the `requests` library hands it back: the numeric
status code and the raw body text.  (`response.json()` is the JSON parse of
the body.) -/
structure HttpResponse where
  status_code : Nat
  text : String

/-- The exceptions the trigger path can raise below the entry point:
`requests.exceptions.HTTPError` carrying the response's status code and
body (raised by `raise_for_status`), and `json.JSONDecodeError` from
`response.json()`. -/
inductive PyExc where
  | httpError (status_code : Nat) (body : String)
  | jsonDecodeError

/-- Model of `requests.Response.raise_for_status` (source line 72): raises
`HTTPError` exactly when the status code is a 4xx client error or a 5xx
server error, i.e. lies in `[400, 600)`.  Informational 1xx, success 2xx
and redirect 3xx codes do not raise. -/
def raise_for_status (r : HttpResponse) : Except PyExc Unit :=
  if 400 ≤ r.status_code ∧ r.status_code < 600 then
    .error (.httpError r.status_code r.text)
  else .ok ()

/-- Model of `response.json()`: parse the body, raising
`json.JSONDecodeError` on failure. -/
def response_json (r : HttpResponse) : Except PyExc Json :=
  match json_loads r.text with
  | some v => .ok v
  | none => .error .jsonDecodeError

/-- The trigger request payload built on source lines 57–65: the dict
literal `{base_url, ci_run_id, branch, commit}` with the `None`-valued
entries removed by the comprehension, insertion order preserved. -/
def trigger_payload (test_base_url : String)
    (ci_run_id branch commit : Option String) : List (String × String) :=
  [("base_url", some test_base_url), ("ci_run_id", ci_run_id),
   ("branch", branch), ("commit", commit)].filterMap
    fun p => p.2.map fun v => (p.1, v)

/-- Model of `KeystoneCI.trigger_suite_run` (source lines 50–84): the
payload it POSTs, and the outcome of handling the response —
`raise_for_status`, then `response.json()`, whose value is returned as the
run handle.  The log `print`s (payload, identifiers) are operator-facing
side output and are not modelled. -/
def trigger_suite_run (test_base_url : String)
    (ci_run_id branch commit : Option String) (resp : HttpResponse) :
    List (String × String) × Except PyExc Json :=
  (trigger_payload test_base_url ci_run_id branch commit,
   match raise_for_status resp with
   | .error e => .error e
   | .ok _ => response_json resp)

/-- The entry point's `except requests.exceptions.HTTPError` handler
(source lines 217–219): the printed report and the process exit code. -/
def report_http_error (status_code : Nat) (body : String) : String × Nat :=
  ("API Error: " ++ natStr status_code ++ " - " ++ body, 1)

/-- Outcome of the polling loop `wait_for_completion`, with the observables
the claims speak about: the returned snapshot, the number of status
fetches, the number of sleeps, the elapsed time at exit, and — for the
timeout exit — the number of seconds interpolated into the `TimeoutError`
message (`"Suite run did not complete within {·} seconds"`). -/
inductive PollExit where
  | finished (snapshot : Json) (fetches sleeps elapsed : Nat)
  | timedOut (reported fetches sleeps elapsed : Nat)
  | keyError (fetches : Nat)
  | diverged

/-- The terminal-status test of source line 112:
`status['status'] in ['completed', 'failed', 'aborted']`.  A non-string
value is unequal to all three literals, hence non-terminal. -/
def statusIsTerminal : Json → Bool
  | .str s => s == "completed" || s == "failed" || s == "aborted"
  | _ => false

/-- One pass of the `while time.time() - start_time < timeout` loop of
`wait_for_completion` (source lines 109–117), at tick index `k` (so with
`k` sleeps taken and idealized elapsed time `k * poll_interval`).  `fetch
k` is the decoded body of the `k`-th successful status request. -/
def pollGo (fetch : Nat → Json) (timeout poll_interval : Nat) :
    Nat → Nat → PollExit
  | 0, _ => .diverged
  | fuel + 1, k =>
    if k * poll_interval < timeout then
      match jGet (fetch k) "status" with
      | none => .keyError (k + 1)
      | some sv =>
        if statusIsTerminal sv then .finished (fetch k) (k + 1) k (k * poll_interval)
        else pollGo fetch timeout poll_interval fuel (k + 1)
    else .timedOut timeout k k (k * poll_interval)

/-- Model of `KeystoneCI.wait_for_completion` (source lines 102–119).  Fuel
`timeout + 2` bounds the loop: with `poll_interval ≥ 1` at most
`timeout + 1` ticks can pass the while-guard, so the fuel is never
exhausted; `poll_interval = 0` (where the idealized loop spins forever)
surfaces as `.diverged`. -/
def wait_for_completion (fetch : Nat → Json) (timeout poll_interval : Nat) :
    PollExit :=
  pollGo fetch timeout poll_interval (timeout + 2) 0

/-- What `format_output` did: the `print`ed lines in order, and `some code`
when it terminated the process through `sys.exit`. -/
structure Rendered where
  lines : List String
  exited : Option Nat

/-- The `"-" * 60` separator of source line 156. -/
def dashes60 : String := String.mk (List.replicate 60 '-')

/-- One per-test line of the text format (source lines 157–159). -/
def renderTestRow (t : Json) : Option String :=
  match jGet t "status", jGet t "test_name", jGet t "duration_ms" with
  | some st, some name, some dur =>
    let icon := match st with
      | .str s => if s = "completed" then "✅" else "❌"
      | _ => "❌"
    some (icon ++ " " ++ pyStrOf name ++ ": " ++ pyStrOf st ++ " (" ++ pyStrOf dur ++ "ms)")
  | _, _, _ => none

/-- The `json` branch of `format_output` (source lines 124–125). -/
def formatJson (data : Json) : Rendered :=
  ⟨[json_dumps data], none⟩

/-- The `github` branch of `format_output` (source lines 127–142): the
`::set-output` lines, the summary line, and `sys.exit(1)` when
`data['failed_tests'] > 0`.  Line 129 guards the run-id line with Python
truthiness (`if suite_run_id:`), so both `None` and the empty string skip
it. -/
def formatGithub (data : Json) (suite_run_id : Option String) : Option Rendered :=
  let idLines := match suite_run_id with
    | some sid => if sid = "" then [] else ["::set-output name=suite_run_id::" ++ sid]
    | none => []
  match jGet data "status", jGet data "passed_tests", jGet data "failed_tests",
        jGet data "total_tests" with
  | some st, some pt, some ft, some tt =>
    let ru := (jGet data "run_url").getD (.str "")
    let baseLines := idLines ++
      ["::set-output name=status::" ++ pyStrOf st,
       "::set-output name=passed_tests::" ++ pyStrOf pt,
       "::set-output name=failed_tests::" ++ pyStrOf ft,
       "::set-output name=total_tests::" ++ pyStrOf tt,
       "::set-output name=run_url::" ++ pyStrOf ru]
    match asInt ft with
    | some f =>
      if 0 < f then
        some ⟨baseLines ++ ["\n❌ Tests failed: " ++ pyStrOf ft ++ " out of " ++ pyStrOf tt],
              some 1⟩
      else
        some ⟨baseLines ++ ["\n✅ All " ++ pyStrOf tt ++ " tests passed!"], none⟩
    | none => none
  | _, _, _, _ => none

/-- The text branch of `format_output` (source lines 144–159): summary
lines, the run URL when truthy, and the per-test table when a truthy test
list is present. -/
def formatText (data : Json) : Option Rendered :=
  match jGet data "status", jGet data "total_tests", jGet data "passed_tests",
        jGet data "failed_tests" with
  | some st, some tt, some pt, some ft =>
    let base := ["\nSuite Run Status: " ++ pyStrOf st,
                 "Total Tests: " ++ pyStrOf tt,
                 "Passed: " ++ pyStrOf pt,
                 "Failed: " ++ pyStrOf ft]
    let urlLines := match jGet data "run_url" with
      | some u => if pyTruthy u then ["\nView results: " ++ pyStrOf u] else []
      | none => []
    match jGet data "tests" with
    | some ts =>
      if pyTruthy ts then
        match ts with
        | .arr items =>
          match items.mapM renderTestRow with
          | some rows => some ⟨base ++ urlLines ++ ("\nTest Results:" :: dashes60 :: rows), none⟩
          | none => none
        | _ => none
      else some ⟨base ++ urlLines, none⟩
    | none => some ⟨base ++ urlLines, none⟩
  | _, _, _, _ => none

/-- Model of `format_output` (source lines 122–159): the `json` and
`github` selectors take their branches, every other selector falls through
to the text rendering (`else:` comment `# text format`). -/
def format_output (data : Json) (format_type : String)
    (suite_run_id : Option String) : Option Rendered :=
  if format_type = "json" then some (formatJson data)
  else if format_type = "github" then formatGithub data suite_run_id
  else formatText data

/-- The tail of the `run` subcommand after a successful trigger and poll
(source lines 202–206): format, then `sys.exit(1)` iff
`final_status['failed_tests'] > 0`.  An exception escaping `format_output`
or the field access is caught by the top-level handlers (lines 217–225)
and also exits 1.  The result is the process exit code. -/
def run_exit_after_poll (final_status : Json) (output : String)
    (suite_run_id : String) : Nat :=
  match format_output final_status output (some suite_run_id) with
  | none => 1
  | some r =>
    match r.exited with
    | some c => c
    | none =>
      match jGet final_status "failed_tests" with
      | none => 1
      | some v =>
        match asInt v with
        | none => 1
        | some n => if 0 < n then 1 else 0

/-- The tail of the `status` subcommand after a successful status fetch
(source lines 211–215): format, then `sys.exit(1)` iff
`status['status'] == 'failed' or status['failed_tests'] > 0` (the `or`
short-circuits, so `failed_tests` is only consulted when the status string
is not `"failed"`).  The result is the process exit code. -/
def status_command_exit (data : Json) (output : String) : Nat :=
  match format_output data output none with
  | none => 1
  | some r =>
    match r.exited with
    | some c => c
    | none =>
      match jGet data "status" with
      | none => 1
      | some sv =>
        if (match sv with | .str s => s == "failed" | _ => false : Bool) then 1
        else
          match jGet data "failed_tests" with
          | none => 1
          | some v =>
            match asInt v with
            | none => 1
            | some n => if 0 < n then 1 else 0

/-- A status snapshot with the string status `"running"`. -/
def runningStatus : Json := .obj [("status", .str "running")]

/-- The status sequence of testable property 2 of the spec:
`"running", "running", "completed", ...`. -/
def exampleStatuses : Nat → Json :=
  fun k => .obj [("status", .str (if k < 2 then "running" else "completed"))]

/-- A well-formed per-test entry of a status snapshot. -/
def mkTest (name st : String) (dur : Int) : Json :=
  .obj [("test_name", .str name), ("status", .str st), ("duration_ms", .num dur)]

/-- A well-formed status snapshot as the status endpoint returns it: the
four mandatory fields, plus `run_url` and `tests` when provided. -/
def mkStatus (st : String) (total passed failed : Int) (url : Option String)
    (tests : Option (List (String × String × Int))) : Json :=
  .obj ([("status", .str st), ("total_tests", .num total),
         ("passed_tests", .num passed), ("failed_tests", .num failed)] ++
        (match url with | some u => [("run_url", .str u)] | none => []) ++
        (match tests with
         | some ts => [("tests", .arr (ts.map fun p => mkTest p.1 p.2.1 p.2.2))]
         | none => []))

/-- The expected text-format row for a per-test entry `(name, status,
duration)`. -/
def testRowStr (p : String × String × Int) : String :=
  (if p.2.1 = "completed" then "✅" else "❌") ++ " " ++ p.1 ++ ": " ++ p.2.1 ++
    " (" ++ intStr p.2.2 ++ "ms)"

/-- The payload entry contributed by one optional trigger field. -/
def optField (k : String) : Option String → List (String × String)
  | some v => [(k, v)]
  | none => []

/-- A character list that cannot extend a preceding number literal: empty,
or starting with a non-digit that is also not `.`/`e`/`E`. -/
def numBoundaryB : List Char → Bool
  | [] => true
  | c :: _ => !(c.isDigit || c = '.' || c = 'e' || c = 'E')

/-!
## Theorems

First the polling loop (claims C1–C3), then the trigger payload and error
handling (C4, C5), the output formatter and exit codes (C6, C7, C9, C10),
and finally the JSON round trip (C8).
-/

/-- Invariant of the polling loop: a `finished` exit returns the snapshot
of the first tick at or after the entry index whose status is terminal,
with the corresponding fetch/sleep/elapsed counters, and every consulted
tick passed the `elapsed < timeout` guard. -/
theorem pollGo_finished_inv (fetch : Nat → Json) (t i : Nat) :
    ∀ fuel k s f sl el, pollGo fetch t i fuel k = .finished s f sl el →
      k ≤ sl ∧ s = fetch sl ∧ f = sl + 1 ∧ el = sl * i ∧
      (∃ sv, jGet (fetch sl) "status" = some sv ∧ statusIsTerminal sv = true) ∧
      (∀ j, k ≤ j → j < sl →
        ∃ sv, jGet (fetch j) "status" = some sv ∧ statusIsTerminal sv = false) ∧
      (∀ j, k ≤ j → j ≤ sl → j * i < t) := by
  intro fuel
  induction fuel with
  | zero => intro k s f sl el h; simp [pollGo] at h
  | succ fuel ih =>
    intro k s f sl el h
    simp only [pollGo] at h
    split at h
    next hk =>
      split at h
      next heq => simp at h
      next sv heq =>
        split at h
        next hterm =>
          injection h with h1 h2 h3 h4
          subst h1; subst h3; subst h4
          refine ⟨le_refl _, rfl, by omega, rfl, ⟨sv, heq, hterm⟩, ?_, ?_⟩
          · intro j hj1 hj2; omega
          · intro j hj1 hj2
            have hjk : j = k := by omega
            subst hjk; exact hk
        next hterm =>
          obtain ⟨hks, hs, hf, hel, hterm2, hnon, hguard⟩ := ih (k + 1) s f sl el h
          refine ⟨by omega, hs, hf, hel, hterm2, ?_, ?_⟩
          · intro j hj1 hj2
            by_cases hjk : j = k
            · subst hjk
              exact ⟨sv, heq, by simpa using hterm⟩
            · exact hnon j (by omega) hj2
          · intro j hj1 hj2
            by_cases hjk : j = k
            · subst hjk; exact hk
            · exact hguard j (by omega) hj2
    next hk => simp at h

/-- Claim C1: for every sequence of polled statuses, `wait_for_completion`
returns the snapshot of the first poll tick whose status field is terminal
(`completed`/`failed`/`aborted`), having performed no status fetch after
the timeout had elapsed; in particular, for the status sequence
`running, running, completed` with poll interval 1s and timeout 10s it
returns the `completed` snapshot after exactly 2 sleeps. -/
theorem wait_returns_first_terminal :
    (∀ fetch timeout interval s f sl el,
      wait_for_completion fetch timeout interval = .finished s f sl el →
        s = fetch sl ∧ f = sl + 1 ∧ el = sl * interval ∧
        (∃ sv, jGet (fetch sl) "status" = some sv ∧ statusIsTerminal sv = true) ∧
        (∀ j, j < sl →
          ∃ sv, jGet (fetch j) "status" = some sv ∧ statusIsTerminal sv = false) ∧
        (∀ j, j < f → j * interval < timeout)) ∧
    wait_for_completion exampleStatuses 10 1 =
      .finished (Json.obj [("status", Json.str "completed")]) 3 2 2 := by
  constructor
  · intro fetch t i s f sl el h
    obtain ⟨-, hs, hf, hel, hterm, hnon, hguard⟩ :=
      pollGo_finished_inv fetch t i (t + 2) 0 s f sl el h
    exact ⟨hs, hf, hel, hterm, fun j hj => hnon j (Nat.zero_le j) hj,
      fun j hj => hguard j (Nat.zero_le j) (by omega)⟩
  · rfl

/-- Witness for C1: the concrete run of testable property 2 reaches the
`completed` snapshot at tick 2 (so 3 fetches, 2 sleeps), and every one of
its fetches happened strictly before the timeout. -/
theorem wait_returns_first_terminal_witness :
    wait_for_completion exampleStatuses 10 1 =
      .finished (exampleStatuses 2) 3 2 2 ∧
    (∀ j, j < 3 → j * 1 < 10) :=
  ⟨by rfl,
   (wait_returns_first_terminal.1 exampleStatuses 10 1 (exampleStatuses 2) 3 2 2
     (by rfl)).2.2.2.2.2⟩

/-- Claim C2: when the poll interval exceeds the timeout and the fetched
status is non-terminal, the poller performs exactly one status fetch, one
sleep, and then fails by timeout without a second fetch; concretely so for
timeout 5s, interval 10s and a constant `running` status. -/
theorem wait_single_fetch_when_interval_exceeds_timeout :
    (∀ fetch timeout interval, 0 < timeout → timeout < interval →
      (∃ sv, jGet (fetch 0) "status" = some sv ∧ statusIsTerminal sv = false) →
      wait_for_completion fetch timeout interval =
        .timedOut timeout 1 1 interval) ∧
    wait_for_completion (fun _ => runningStatus) 5 10 = .timedOut 5 1 1 10 := by
  constructor
  · intro fetch t i ht hti hnon
    obtain ⟨sv, hsv, hterm⟩ := hnon
    show pollGo fetch t i (t + 1 + 1) 0 = .timedOut t 1 1 i
    simp only [pollGo]
    rw [if_pos (show 0 * i < t by omega), hsv]
    dsimp only
    rw [if_neg (show ¬ statusIsTerminal sv = true by simp [hterm])]
    rw [if_neg (show ¬ (0 + 1) * i < t by omega)]
    simp
  · rfl

/-- Witness for C2: the general statement applied at timeout 5, interval
10 and the constant `running` sequence. -/
theorem wait_single_fetch_when_interval_exceeds_timeout_witness :
    wait_for_completion (fun _ => runningStatus) 5 10 = .timedOut 5 1 1 10 :=
  wait_single_fetch_when_interval_exceeds_timeout.1 (fun _ => runningStatus) 5 10
    (by omega) (by omega) ⟨Json.str "running", by rfl, by rfl⟩

/-- Invariant of the polling loop: a timeout exit reports the configured
`timeout` value in the `TimeoutError` message, regardless of the measured
elapsed time. -/
theorem pollGo_timedOut_reported (fetch : Nat → Json) (t i : Nat) :
    ∀ fuel k rep f sl el, pollGo fetch t i fuel k = .timedOut rep f sl el →
      rep = t := by
  intro fuel
  induction fuel with
  | zero => intro k rep f sl el h; simp [pollGo] at h
  | succ fuel ih =>
    intro k rep f sl el h
    simp only [pollGo] at h
    split at h
    next hk =>
      split at h
      next heq => simp at h
      next sv heq =>
        split at h
        next hterm => simp at h
        next hterm => exact ih (k + 1) rep f sl el h
    next hk =>
      injection h with h1 h2 h3 h4
      exact h1.symm

/-- Counterexample to claim C3 as stated: the run with timeout 5s and
interval 10s exits by timeout with an error reporting 5 (the configured
timeout), while the measured elapsed time is 10; so the error does not, in
general, carry the elapsed duration. -/
theorem poll_timeout_carries_elapsed_cex :
    wait_for_completion (fun _ => runningStatus) 5 10 = .timedOut 5 1 1 10 ∧
    ¬ (∀ fetch timeout interval rep f sl el,
        wait_for_completion fetch timeout interval = .timedOut rep f sl el →
        rep = el) := by
  refine ⟨by rfl, fun hall => ?_⟩
  have h5 := hall (fun _ => runningStatus) 5 10 5 1 1 10 (by rfl)
  omega

/-- Claim C3 amended: whenever the polling loop exits because the elapsed
time reached the timeout without a terminal status, the `TimeoutError` it
raises carries the configured timeout duration (the source interpolates
`timeout`, not the measured elapsed time, into the message). -/
theorem poll_timeout_reports_configured_timeout :
    ∀ fetch timeout interval rep f sl el,
      wait_for_completion fetch timeout interval = .timedOut rep f sl el →
      rep = timeout :=
  fun fetch t i rep f sl el h =>
    pollGo_timedOut_reported fetch t i (t + 2) 0 rep f sl el h

/-- Witness for the amended C3: a run with timeout 7s and interval 3s
times out after three ticks and reports 7, the configured timeout. -/
theorem poll_timeout_reports_configured_timeout_witness :
    wait_for_completion (fun _ => runningStatus) 7 3 = .timedOut 7 3 3 9 ∧
    (7 : Nat) = 7 :=
  ⟨by rfl,
   poll_timeout_reports_configured_timeout (fun _ => runningStatus) 7 3 7 3 3 9 (by rfl)⟩

/-- Claim C4: the trigger payload is exactly `base_url` plus the optional
fields that are set, in the dict-literal order, and a key whose value is
unset never appears. -/
theorem trigger_payload_exactly_set_fields :
    ∀ b ci br cm,
      trigger_payload b ci br cm =
        ("base_url", b) ::
          (optField "ci_run_id" ci ++ optField "branch" br ++ optField "commit" cm) ∧
      (ci = none → ∀ v, ("ci_run_id", v) ∉ trigger_payload b ci br cm) ∧
      (br = none → ∀ v, ("branch", v) ∉ trigger_payload b ci br cm) ∧
      (cm = none → ∀ v, ("commit", v) ∉ trigger_payload b ci br cm) := by
  intro b ci br cm
  cases ci <;> cases br <;> cases cm <;>
    simp [trigger_payload, optField]

/-- Witness for C4: with only `branch` set, the payload is `base_url` and
`branch`, and no `ci_run_id` key appears. -/
theorem trigger_payload_exactly_set_fields_witness :
    trigger_payload "https://app.example" none (some "main") none =
      [("base_url", "https://app.example"), ("branch", "main")] ∧
    (∀ v, ("ci_run_id", v) ∉ trigger_payload "https://app.example" none (some "main") none) :=
  ⟨by rfl,
   (trigger_payload_exactly_set_fields "https://app.example" none (some "main") none).2.1 rfl⟩

/-- Counterexample to claim C5 as stated: a 301 redirect response (with a
JSON body, as a misbehaving or non-followable redirect can produce) is not
a 2xx response, yet `raise_for_status` raises nothing — `requests` raises
`HTTPError` only for 4xx/5xx — and `trigger_suite_run` parses the body and
returns a handle.  So "every non-2xx response fails with an ApiError" is
false. -/
theorem trigger_non2xx_without_error_cex :
    ¬ (200 ≤ 301 ∧ 301 < 300) ∧
    (trigger_suite_run "https://app.example" none none none
        ⟨301, "\x7b\"suite_run_id\": \"abc\"\x7d"⟩).2 =
      .ok (.obj [("suite_run_id", .str "abc")]) ∧
    ¬ (∀ resp : HttpResponse, ¬ (200 ≤ resp.status_code ∧ resp.status_code < 300) →
        ∃ e, (trigger_suite_run "https://app.example" none none none resp).2 = .error e) := by
  refine ⟨by decide, by rfl, fun hall => ?_⟩
  obtain ⟨e, he⟩ :=
    hall ⟨301, "\x7b\"suite_run_id\": \"abc\"\x7d"⟩ (by decide)
  rw [show (trigger_suite_run "https://app.example" none none none
        ⟨301, "\x7b\"suite_run_id\": \"abc\"\x7d"⟩).2 =
      .ok (.obj [("suite_run_id", .str "abc")]) from rfl] at he
  exact absurd he (by simp)

/-- Claim C5 amended: for every 4xx or 5xx HTTP response (status code in
`[400, 600)`) — e.g. status 500 with body `server error` —
`trigger_suite_run` fails with an `HTTPError` carrying that status code
and raw body, producing no handle, and the top level reports it as
`API Error: <code> - <body>` with exit code 1; conversely, on any 2xx
response no `HTTPError` is raised and the parsed response body is returned
as the handle. -/
theorem trigger_api_error_on_4xx_5xx :
    ∀ b ci br cm (resp : HttpResponse),
      (400 ≤ resp.status_code → resp.status_code < 600 →
        (trigger_suite_run b ci br cm resp).2 =
          .error (.httpError resp.status_code resp.text) ∧
        report_http_error resp.status_code resp.text =
          ("API Error: " ++ natStr resp.status_code ++ " - " ++ resp.text, 1)) ∧
      (200 ≤ resp.status_code → resp.status_code < 300 →
        (∀ c bd, (trigger_suite_run b ci br cm resp).2 ≠ .error (.httpError c bd)) ∧
        (∀ v, json_loads resp.text = some v →
          (trigger_suite_run b ci br cm resp).2 = .ok v)) := by
  intro b ci br cm resp
  constructor
  · intro h4 h6
    constructor
    · show (match raise_for_status resp with
        | Except.error e => Except.error e
        | Except.ok _ => response_json resp) =
        Except.error (PyExc.httpError resp.status_code resp.text)
      rw [show raise_for_status resp =
        .error (.httpError resp.status_code resp.text) from by
          unfold raise_for_status; rw [if_pos ⟨h4, h6⟩]]
    · rfl
  · intro h2 h3
    have hok : raise_for_status resp = .ok () := by
      unfold raise_for_status; rw [if_neg (by omega)]
    constructor
    · intro c bd habs
      rw [show (trigger_suite_run b ci br cm resp).2 =
          (match raise_for_status resp with
            | Except.error e => Except.error e
            | Except.ok _ => response_json resp) from rfl, hok] at habs
      unfold response_json at habs
      cases hjl : json_loads resp.text with
      | none => rw [hjl] at habs; exact absurd habs (by simp)
      | some v => rw [hjl] at habs; exact absurd habs (by simp)
    · intro v hv
      rw [show (trigger_suite_run b ci br cm resp).2 =
          (match raise_for_status resp with
            | Except.error e => Except.error e
            | Except.ok _ => response_json resp) from rfl, hok]
      unfold response_json
      rw [hv]

/-- Witness for the amended C5: status 500 with body `server error` yields
the `HTTPError` and the `API Error: 500 - server error` report, and a 200
response with a JSON body yields the parsed handle. -/
theorem trigger_api_error_on_4xx_5xx_witness :
    ((trigger_suite_run "https://app.example" none none none
        ⟨500, "server error"⟩).2 = .error (.httpError 500 "server error") ∧
      report_http_error 500 "server error" =
        ("API Error: " ++ natStr 500 ++ " - " ++ "server error", 1)) ∧
    (trigger_suite_run "https://app.example" none none none
        ⟨200, "\x7b\"suite_run_id\": \"abc\"\x7d"⟩).2 =
      .ok (.obj [("suite_run_id", .str "abc")]) :=
  ⟨(trigger_api_error_on_4xx_5xx "https://app.example" none none none
      ⟨500, "server error"⟩).1 (by decide) (by decide),
   ((trigger_api_error_on_4xx_5xx "https://app.example" none none none
      ⟨200, "\x7b\"suite_run_id\": \"abc\"\x7d"⟩).2 (by decide) (by decide)).2
      (.obj [("suite_run_id", .str "abc")]) (by rfl)⟩

/-- Selector dispatch of `format_output`: `"github"` takes the github
branch. -/
theorem format_output_github_eq (data : Json) (sid : Option String) :
    format_output data "github" sid = formatGithub data sid := rfl

/-- Selector dispatch of `format_output`: `"text"` takes the text branch. -/
theorem format_output_text_eq (data : Json) (sid : Option String) :
    format_output data "text" sid = formatText data := rfl

/-- Selector dispatch of `format_output`: `"json"` emits the serialized
status verbatim with no exit side effect. -/
theorem format_output_json_eq (data : Json) (sid : Option String) :
    format_output data "json" sid = some ⟨[json_dumps data], none⟩ := rfl

/-- One well-formed per-test entry renders to the expected row. -/
theorem renderTestRow_mkTest (name st : String) (dur : Int) :
    renderTestRow (mkTest name st dur) = some (testRowStr (name, st, dur)) := by
  simp [renderTestRow, mkTest, jGet, lookupField, testRowStr, pyStrOf, pyReprV, intStr]

/-- A list of well-formed per-test entries renders to the expected rows
(stated over the `List.mapM` accumulator loop). -/
theorem mapM_renderTestRow (ps : List (String × String × Int)) :
    ∀ acc : List String,
      List.mapM.loop renderTestRow (ps.map fun p => mkTest p.1 p.2.1 p.2.2) acc =
        some (acc.reverse ++ ps.map testRowStr) := by
  induction ps with
  | nil => intro acc; simp [List.mapM.loop]
  | cons p ps ih =>
    intro acc
    simp only [List.map_cons, List.mapM.loop, renderTestRow_mkTest, ih]
    simp

/-- Rendering of a well-formed status snapshot in text format: the four
summary lines, the run URL line when the URL is present and non-empty, and
the per-test table when a non-empty test list is present; no exit side
effect. -/
theorem formatText_mkStatus (st : String) (total passed failed : Int)
    (url : Option String) (tests : Option (List (String × String × Int))) :
    formatText (mkStatus st total passed failed url tests) =
      some ⟨["\nSuite Run Status: " ++ st,
             "Total Tests: " ++ intStr total,
             "Passed: " ++ intStr passed,
             "Failed: " ++ intStr failed] ++
            (match url with
             | some u => if u = "" then [] else ["\nView results: " ++ u]
             | none => []) ++
            (match tests with
             | some ts =>
                if ts = [] then []
                else "\nTest Results:" :: dashes60 :: ts.map testRowStr
             | none => []), none⟩ := by
  cases url with
  | none =>
    cases tests with
    | none =>
      simp [formatText, mkStatus, jGet, lookupField, pyStrOf, pyReprV, intStr]
    | some ts =>
      cases ts with
      | nil =>
        simp [formatText, mkStatus, jGet, lookupField, pyStrOf, pyReprV, intStr, pyTruthy]
      | cons p ps =>
        have hm := mapM_renderTestRow (p :: ps) []
        simp only [List.map_cons, List.reverse_nil, List.nil_append] at hm
        simp [formatText, mkStatus, jGet, lookupField, pyStrOf, pyReprV, intStr, pyTruthy, hm]
  | some u =>
    by_cases hu : u = ""
    · cases tests with
      | none =>
        simp [formatText, mkStatus, jGet, lookupField, pyStrOf, pyReprV, intStr, pyTruthy, hu]
      | some ts =>
        cases ts with
        | nil =>
          simp [formatText, mkStatus, jGet, lookupField, pyStrOf, pyReprV, intStr, pyTruthy, hu]
        | cons p ps =>
          have hm := mapM_renderTestRow (p :: ps) []
          simp only [List.map_cons, List.reverse_nil, List.nil_append] at hm
          simp [formatText, mkStatus, jGet, lookupField, pyStrOf, pyReprV, intStr, pyTruthy,
            hu, hm]
    · cases tests with
      | none =>
        simp [formatText, mkStatus, jGet, lookupField, pyStrOf, pyReprV, intStr, pyTruthy, hu]
      | some ts =>
        cases ts with
        | nil =>
          simp [formatText, mkStatus, jGet, lookupField, pyStrOf, pyReprV, intStr, pyTruthy, hu]
        | cons p ps =>
          have hm := mapM_renderTestRow (p :: ps) []
          simp only [List.map_cons, List.reverse_nil, List.nil_append] at hm
          simp [formatText, mkStatus, jGet, lookupField, pyStrOf, pyReprV, intStr, pyTruthy,
            hu, hm]

/-- Rendering of a well-formed status snapshot in github format: one
`::set-output` line per field (plus the run-id line when a truthy one is
provided), the summary line, and `sys.exit(1)` exactly when the
failed-test count is positive. -/
theorem formatGithub_mkStatus (st : String) (total passed failed : Int)
    (url : Option String) (tests : Option (List (String × String × Int)))
    (sid : Option String) :
    formatGithub (mkStatus st total passed failed url tests) sid =
      some ⟨(match sid with
             | some s => if s = "" then [] else ["::set-output name=suite_run_id::" ++ s]
             | none => []) ++
            ["::set-output name=status::" ++ st,
             "::set-output name=passed_tests::" ++ intStr passed,
             "::set-output name=failed_tests::" ++ intStr failed,
             "::set-output name=total_tests::" ++ intStr total,
             "::set-output name=run_url::" ++ (url.getD "")] ++
            (if 0 < failed
             then ["\n❌ Tests failed: " ++ intStr failed ++ " out of " ++ intStr total]
             else ["\n✅ All " ++ intStr total ++ " tests passed!"]),
            if 0 < failed then some 1 else none⟩ := by
  by_cases hf : 0 < failed <;>
    cases url <;>
    cases tests <;>
    simp [formatGithub, mkStatus, jGet, lookupField, pyStrOf, pyReprV, intStr, asInt, hf]

/-- The text branch never terminates the process. -/
theorem formatText_exited_none (data : Json) :
    ∀ r, formatText data = some r → r.exited = none := by
  intro r h
  unfold formatText at h
  repeat' split at h
  all_goals try dsimp only at h
  all_goals first
    | exact Option.noConfusion h
    | (injection h with h2; subst h2; rfl)

/-- Claim C6: in github format, `format_output` emits one
`::set-output name=<field>::<value>` line for each of status,
passed_tests, failed_tests, total_tests and run_url (plus the run-id line
when given a truthy one — line 129's `if suite_run_id:` skips it for the
empty string), then a human summary line, and terminates the process
with exit code 1 exactly when `failed_tests > 0`; with `failed_tests = 0`
it does not exit, and the status subcommand then completes with exit code
0 when the status string is not `failed`. -/
theorem format_github_lines_and_exit :
    ∀ st (total passed failed : Int) url tests sid,
      format_output (mkStatus st total passed failed url tests) "github" (some sid) =
        some ⟨(if sid = "" then [] else ["::set-output name=suite_run_id::" ++ sid]) ++
              ("::set-output name=status::" ++ st) ::
              ("::set-output name=passed_tests::" ++ intStr passed) ::
              ("::set-output name=failed_tests::" ++ intStr failed) ::
              ("::set-output name=total_tests::" ++ intStr total) ::
              ("::set-output name=run_url::" ++ (url.getD "")) ::
              (if 0 < failed
               then ["\n❌ Tests failed: " ++ intStr failed ++ " out of " ++ intStr total]
               else ["\n✅ All " ++ intStr total ++ " tests passed!"]),
              if 0 < failed then some 1 else none⟩ ∧
      (failed = 0 → st ≠ "failed" →
        status_command_exit (mkStatus st total passed failed url tests) "github" = 0) := by
  intro st total passed failed url tests sid
  constructor
  · rw [format_output_github_eq, formatGithub_mkStatus]
    simp
  · intro h0 hne
    subst h0
    unfold status_command_exit
    rw [format_output_github_eq, formatGithub_mkStatus]
    simp [mkStatus, jGet, lookupField, asInt, hne]

/-- Witness for C6: the all-passed snapshot emits the five annotation
lines plus the run-id line and the success summary with no exit, and the
status subcommand path exits 0 on it. -/
theorem format_github_lines_and_exit_witness :
    format_output (mkStatus "completed" 3 3 0 none none) "github" (some "run-1") =
      some ⟨["::set-output name=suite_run_id::run-1",
             "::set-output name=status::completed",
             "::set-output name=passed_tests::3",
             "::set-output name=failed_tests::0",
             "::set-output name=total_tests::3",
             "::set-output name=run_url::",
             "\n✅ All 3 tests passed!"], none⟩ ∧
    status_command_exit (mkStatus "completed" 3 3 0 none none) "github" = 0 :=
  ⟨by rfl,
   (format_github_lines_and_exit "completed" 3 3 0 none none "run-1").2 rfl (by decide)⟩

/-- Claim C9: text-format rendering of the status
`{status: completed, total_tests: 3, passed_tests: 2, failed_tests: 1}`
produces output containing the literal substrings `Total Tests: 3`,
`Passed: 2` and `Failed: 1`. -/
theorem format_text_contains_counts :
    format_output (mkStatus "completed" 3 2 1 none none) "text" none =
      some ⟨["\nSuite Run Status: completed", "Total Tests: 3",
             "Passed: 2", "Failed: 1"], none⟩ ∧
    (∃ a b, String.intercalate "\n"
        ["\nSuite Run Status: completed", "Total Tests: 3", "Passed: 2", "Failed: 1"] =
        a ++ "Total Tests: 3" ++ b) ∧
    (∃ a b, String.intercalate "\n"
        ["\nSuite Run Status: completed", "Total Tests: 3", "Passed: 2", "Failed: 1"] =
        a ++ "Passed: 2" ++ b) ∧
    (∃ a b, String.intercalate "\n"
        ["\nSuite Run Status: completed", "Total Tests: 3", "Passed: 2", "Failed: 1"] =
        a ++ "Failed: 1" ++ b) := by
  refine ⟨by rfl, ?_, ?_, ?_⟩
  · exact ⟨"\nSuite Run Status: completed\n", "\nPassed: 2\nFailed: 1", by rfl⟩
  · exact ⟨"\nSuite Run Status: completed\nTotal Tests: 3\n", "\nFailed: 1", by rfl⟩
  · exact ⟨"\nSuite Run Status: completed\nTotal Tests: 3\nPassed: 2\n", "", by rfl⟩

/-- Claim C10: every format selector other than `json` and `github` —
not only `text` — falls through to the text rendering branch, which never
exits the process. -/
theorem format_unknown_selector_text_fallback :
    ∀ data format_type sid, format_type ≠ "json" → format_type ≠ "github" →
      format_output data format_type sid = format_output data "text" sid ∧
      (∀ r, format_output data format_type sid = some r → r.exited = none) := by
  intro data fmt sid h1 h2
  have he : format_output data fmt sid = formatText data := by
    unfold format_output
    rw [if_neg h1, if_neg h2]
  refine ⟨by rw [he, format_output_text_eq], fun r hr => ?_⟩
  rw [he] at hr
  exact formatText_exited_none data r hr

/-- Witness for C10: the misspelled selector `yaml` renders exactly as
`text` does and does not exit. -/
theorem format_unknown_selector_text_fallback_witness :
    format_output (mkStatus "completed" 3 3 0 none none) "yaml" none =
      format_output (mkStatus "completed" 3 3 0 none none) "text" none ∧
    (∀ r, format_output (mkStatus "completed" 3 3 0 none none) "yaml" none = some r →
      r.exited = none) :=
  format_unknown_selector_text_fallback (mkStatus "completed" 3 3 0 none none) "yaml" none
    (by decide) (by decide)

/-- Claim C7: the two subcommands use different exit-code rules.  After a
successful trigger-and-poll, the `run` subcommand exits non-zero exactly
when the final status's `failed_tests` count is positive — regardless of
the status string — identically across all three format selectors; the
`status` subcommand exits non-zero exactly when the fetched status string
is `failed` or its `failed_tests` count is positive. -/
theorem run_and_status_exit_code_rules :
    ∀ st (total passed failed : Int) url tests sid fmt,
      fmt = "text" ∨ fmt = "json" ∨ fmt = "github" →
      ((run_exit_after_poll (mkStatus st total passed failed url tests) fmt sid ≠ 0) ↔
        0 < failed) ∧
      ((status_command_exit (mkStatus st total passed failed url tests) fmt ≠ 0) ↔
        (st = "failed" ∨ 0 < failed)) := by
  intro st total passed failed url tests sid fmt hfmt
  rcases hfmt with h | h | h <;> subst h
  · constructor
    · unfold run_exit_after_poll
      rw [format_output_text_eq, formatText_mkStatus]
      by_cases hf : 0 < failed <;> simp [mkStatus, jGet, lookupField, asInt, hf]
    · unfold status_command_exit
      rw [format_output_text_eq, formatText_mkStatus]
      by_cases hst : st = "failed" <;> by_cases hf : 0 < failed <;>
        simp [mkStatus, jGet, lookupField, asInt, hst, hf]
  · constructor
    · unfold run_exit_after_poll
      rw [format_output_json_eq]
      by_cases hf : 0 < failed <;> simp [mkStatus, jGet, lookupField, asInt, hf]
    · unfold status_command_exit
      rw [format_output_json_eq]
      by_cases hst : st = "failed" <;> by_cases hf : 0 < failed <;>
        simp [mkStatus, jGet, lookupField, asInt, hst, hf]
  · constructor
    · unfold run_exit_after_poll
      rw [format_output_github_eq, formatGithub_mkStatus]
      by_cases hf : 0 < failed <;> simp [mkStatus, jGet, lookupField, asInt, hf]
    · unfold status_command_exit
      rw [format_output_github_eq, formatGithub_mkStatus]
      by_cases hst : st = "failed" <;> by_cases hf : 0 < failed <;>
        simp [mkStatus, jGet, lookupField, asInt, hst, hf]

/-- Witness for C7: a snapshot with status `failed` but zero failed tests
exits 0 from the run subcommand yet exits non-zero from the status
subcommand, in text format. -/
theorem run_and_status_exit_code_rules_witness :
    ((run_exit_after_poll (mkStatus "failed" 3 3 0 none none) "text" "run-1" ≠ 0) ↔
      (0 : Int) < 0) ∧
    ((status_command_exit (mkStatus "failed" 3 3 0 none none) "text" ≠ 0) ↔
      ("failed" = "failed" ∨ (0 : Int) < 0)) :=
  run_and_status_exit_code_rules "failed" 3 3 0 none none "run-1" "text" (Or.inl rfl)

/-- Skipping whitespace passes over an all-whitespace prefix. -/
theorem skipWs_ws_append :
    ∀ ws cs, (∀ c ∈ ws, isWs c = true) → skipWs (ws ++ cs) = skipWs cs := by
  intro ws
  induction ws with
  | nil => intro cs h; rfl
  | cons c ws ih =>
    intro cs h
    simp only [List.cons_append, skipWs, h c (by simp)]
    exact ih cs (fun d hd => h d (by simp [hd]))

/-- Skipping whitespace stops at a non-whitespace head. -/
theorem skipWs_cons_nonWs (c : Char) (cs : List Char) (h : isWs c = false) :
    skipWs (c :: cs) = c :: cs := by
  simp [skipWs, h]

/-- The indent separators of `dumpsV` are all whitespace. -/
theorem nlIndent_ws (lvl : Nat) : ∀ c ∈ nlIndent lvl, isWs c = true := by
  intro c hc
  simp only [nlIndent, List.mem_cons, List.eq_of_mem_replicate] at hc
  rcases hc with h | h
  · subst h; rfl
  · rw [List.eq_of_mem_replicate h]; rfl

/-- The value scanner ignores an all-whitespace prefix. -/
theorem parseV_ws_append (fuel : Nat) (ws cs : List Char)
    (h : ∀ c ∈ ws, isWs c = true) :
    parseV fuel (ws ++ cs) = parseV fuel cs := by
  cases fuel with
  | zero => rfl
  | succ fuel => simp only [parseV, skipWs_ws_append ws cs h]

/-- Properties of the decimal digit characters. -/
theorem digitChar_facts :
    ∀ k, k < 10 →
      (Nat.digitChar k).isDigit = true ∧ isWs (Nat.digitChar k) = false ∧
      Nat.digitChar k ≠ 'n' ∧ Nat.digitChar k ≠ 't' ∧ Nat.digitChar k ≠ 'f' ∧
      Nat.digitChar k ≠ '\"' ∧ Nat.digitChar k ≠ '[' ∧ Nat.digitChar k ≠ '\x7b' ∧
      Nat.digitChar k ≠ '-' ∧ Nat.digitChar k ≠ ']' ∧
      (Nat.digitChar k).toNat - 48 = k := by decide

/-- A positive leading digit is not the character `0`. -/
theorem digitChar_ne_zero : ∀ k, k < 10 → 0 < k → Nat.digitChar k ≠ '0' := by decide

/-- `natCharsAux` of zero is empty whatever the fuel. -/
theorem natCharsAux_zero : ∀ fuel, natCharsAux fuel 0 = [] := by
  intro fuel
  cases fuel with
  | zero => rfl
  | succ fuel => simp [natCharsAux]

/-- Appending one digit multiplies the accumulated value by ten. -/
theorem digitsToNat_append_last (l : List Char) (c : Char) :
    digitsToNat (l ++ [c]) = digitsToNat l * 10 + (c.toNat - 48) := by
  simp [digitsToNat, List.foldl_append]

/-- The digits produced for a positive number: all decimal digit
characters, evaluating back to the number, with a nonzero leading digit. -/
theorem natCharsAux_spec :
    ∀ fuel n, 0 < n → n ≤ fuel →
      (∀ c ∈ natCharsAux fuel n, ∃ k, k < 10 ∧ c = Nat.digitChar k) ∧
      digitsToNat (natCharsAux fuel n) = n ∧
      (∃ k ds, natCharsAux fuel n = Nat.digitChar k :: ds ∧ 0 < k ∧ k < 10) := by
  intro fuel
  induction fuel with
  | zero => intro n h1 h2; omega
  | succ fuel ih =>
    intro n h1 h2
    have hne : ¬ n = 0 := by omega
    simp only [natCharsAux, hne, if_false]
    by_cases hq : n / 10 = 0
    · have hn10 : n < 10 := by omega
      rw [hq, natCharsAux_zero]
      have hmod : n % 10 = n := Nat.mod_eq_of_lt hn10
      rw [hmod]
      refine ⟨?_, ?_, n, [], rfl, h1, hn10⟩
      · intro c hc
        simp only [List.nil_append, List.mem_singleton] at hc
        exact ⟨n, hn10, hc⟩
      · simp only [List.nil_append]
        have := (digitChar_facts n hn10).2.2.2.2.2.2.2.2.2.2
        simp [digitsToNat]
        omega
    · have hqpos : 0 < n / 10 := by omega
      have hqle : n / 10 ≤ fuel := by
        have := Nat.div_lt_self h1 (by omega : 1 < 10)
        omega
      obtain ⟨hmem, hval, k, ds, hhead, hkpos, hk10⟩ := ih (n / 10) hqpos hqle
      have hm10 : n % 10 < 10 := Nat.mod_lt n (by omega)
      refine ⟨?_, ?_, ?_⟩
      · intro c hc
        rcases List.mem_append.mp hc with h | h
        · exact hmem c h
        · simp only [List.mem_singleton] at h
          exact ⟨n % 10, hm10, h⟩
      · rw [digitsToNat_append_last, hval,
          (digitChar_facts (n % 10) hm10).2.2.2.2.2.2.2.2.2.2]
        omega
      · exact ⟨k, ds ++ [Nat.digitChar (n % 10)], by rw [hhead]; rfl, hkpos, hk10⟩

/-- The decimal representation of any natural number: digit characters
evaluating back to the number, with a redundant leading zero only for the
single digit `0`. -/
theorem natChars_spec (n : Nat) :
    (∀ c ∈ natChars n, ∃ k, k < 10 ∧ c = Nat.digitChar k) ∧
    digitsToNat (natChars n) = n ∧
    (∃ k ds, natChars n = Nat.digitChar k :: ds ∧ k < 10 ∧ (k = 0 → ds = [])) := by
  by_cases hn : n = 0
  · subst hn
    refine ⟨?_, by rfl, 0, [], rfl, by omega, fun _ => rfl⟩
    intro c hc
    simp [natChars] at hc
    exact ⟨0, by omega, by rw [hc]; rfl⟩
  · have h1 : 0 < n := by omega
    obtain ⟨hmem, hval, k, ds, hhead, hkpos, hk10⟩ :=
      natCharsAux_spec n n h1 (le_refl n)
    rw [show natChars n = natCharsAux n n from by simp [natChars, hn]]
    exact ⟨hmem, hval, k, ds, hhead, hk10, fun hk0 => absurd hk0 (by omega)⟩

/-- `takeDigits` consumes exactly an all-digit prefix when what follows
does not start with a digit. -/
theorem takeDigits_spec :
    ∀ ds rest, (∀ c ∈ ds, c.isDigit = true) →
      (∀ c cs2, rest = c :: cs2 → c.isDigit = false) →
      takeDigits (ds ++ rest) = (ds, rest) := by
  intro ds
  induction ds with
  | nil =>
    intro rest hds hrest
    cases rest with
    | nil => rfl
    | cons c cs2 => simp [takeDigits, hrest c cs2 rfl]
  | cons d ds ih =>
    intro rest hds hrest
    have hih := ih rest (fun c hc => hds c (by simp [hc])) hrest
    simp only [List.cons_append, takeDigits, hds d (by simp), if_true]
    rw [show ds.append rest = ds ++ rest from rfl, hih]

/-- The number scanner reads back exactly the decimal representation when
the following characters cannot extend a number literal. -/
theorem parseNat_natChars (n : Nat) (rest : List Char)
    (hb : numBoundaryB rest = true) :
    parseNat (natChars n ++ rest) = some (n, rest) := by
  obtain ⟨hmem, hval, k, ds, hhead, hk10, hzero⟩ := natChars_spec n
  have hdigits : ∀ c ∈ natChars n, c.isDigit = true := by
    intro c hc
    obtain ⟨j, hj10, hcj⟩ := hmem c hc
    rw [hcj]
    exact (digitChar_facts j hj10).1
  have hrest : ∀ c cs2, rest = c :: cs2 → c.isDigit = false := by
    intro c cs2 hr
    subst hr
    simp [numBoundaryB] at hb
    tauto
  rw [show parseNat (natChars n ++ rest) =
      (match takeDigits (natChars n ++ rest) with
       | ([], _) => none
       | (d :: ds, r) =>
         if d = '0' ∧ ds ≠ [] then none
         else
           match r with
           | e :: _ =>
             if e = '.' ∨ e = 'e' ∨ e = 'E' then none else some (digitsToNat (d :: ds), r)
           | [] => some (digitsToNat (d :: ds), [])) from rfl]
  rw [takeDigits_spec (natChars n) rest hdigits hrest]
  rw [hhead]
  have hlead : ¬ (Nat.digitChar k = '0' ∧ ds ≠ []) := by
    rintro ⟨hd0, hdsne⟩
    by_cases hk0 : k = 0
    · exact hdsne (hzero hk0)
    · exact digitChar_ne_zero k hk10 (by omega) hd0
  show (if Nat.digitChar k = '0' ∧ ds ≠ [] then none
        else
          match rest with
          | e :: _ =>
            if e = '.' ∨ e = 'e' ∨ e = 'E' then none
            else some (digitsToNat (Nat.digitChar k :: ds), rest)
          | [] => some (digitsToNat (Nat.digitChar k :: ds), [])) = some (n, rest)
  rw [if_neg hlead]
  have hvalk : digitsToNat (Nat.digitChar k :: ds) = n := by rw [← hhead]; exact hval
  cases hr : rest with
  | nil => simp [hvalk]
  | cons e cs2 =>
    show (if e = '.' ∨ e = 'e' ∨ e = 'E' then none
          else some (digitsToNat (Nat.digitChar k :: ds), e :: cs2)) = some (n, e :: cs2)
    have hb2 : ¬ (e = '.' ∨ e = 'e' ∨ e = 'E') := by
      subst hr
      simp [numBoundaryB] at hb
      tauto
    rw [if_neg hb2, hvalk]

/-- Every Lean character is a Unicode scalar value: below the surrogate
range or between it and `0x110000`. -/
theorem char_valid_range (c : Char) :
    c.toNat < 55296 ∨ (57343 < c.toNat ∧ c.toNat < 1114112) := by
  have h := c.valid
  unfold UInt32.isValidChar Nat.isValidChar at h
  exact h

/-- The hexadecimal digit characters decode back to their values. -/
theorem hexVal_digitChar : ∀ k, k < 16 → hexVal (Nat.digitChar k) = some k := by decide

/-- One encoded character scans back to itself: the escape (or raw
character) that `encChar` emits is decoded by the string scanner, which
then continues with the remaining input. -/
theorem encChar_rt (c : Char) (rest : List Char) :
    parseStrBody (encChar c ++ rest) = consStr c (parseStrBody rest) := by
  have hv := char_valid_range c
  by_cases h1 : c = '\"'
  · subst h1
    rw [show encChar '\"' ++ rest = '\\' :: '\"' :: rest from rfl,
      parseStrBody.eq_2, if_neg (by decide), if_pos rfl, parseEsc.eq_2, if_neg (by decide),
      show escChar '\"' = some '\"' from rfl]
  by_cases h2 : c = '\\'
  · subst h2
    rw [show encChar '\\' ++ rest = '\\' :: '\\' :: rest from rfl,
      parseStrBody.eq_2, if_neg (by decide), if_pos rfl, parseEsc.eq_2, if_neg (by decide),
      show escChar '\\' = some '\\' from rfl]
  by_cases h3 : c.toNat = 8
  · have hc : c = Char.ofNat 8 := by rw [← Char.ofNat_toNat c, h3]
    subst hc
    rw [show encChar (Char.ofNat 8) ++ rest = '\\' :: 'b' :: rest from rfl,
      parseStrBody.eq_2, if_neg (by decide), if_pos rfl, parseEsc.eq_2, if_neg (by decide),
      show escChar 'b' = some (Char.ofNat 8) from rfl]
  by_cases h4 : c.toNat = 9
  · have hc : c = Char.ofNat 9 := by rw [← Char.ofNat_toNat c, h4]
    subst hc
    rw [show encChar (Char.ofNat 9) ++ rest = '\\' :: 't' :: rest from rfl,
      parseStrBody.eq_2, if_neg (by decide), if_pos rfl, parseEsc.eq_2, if_neg (by decide),
      show escChar 't' = some (Char.ofNat 9) from rfl]
  by_cases h5 : c.toNat = 10
  · have hc : c = Char.ofNat 10 := by rw [← Char.ofNat_toNat c, h5]
    subst hc
    rw [show encChar (Char.ofNat 10) ++ rest = '\\' :: 'n' :: rest from rfl,
      parseStrBody.eq_2, if_neg (by decide), if_pos rfl, parseEsc.eq_2, if_neg (by decide),
      show escChar 'n' = some (Char.ofNat 10) from rfl]
  by_cases h6 : c.toNat = 12
  · have hc : c = Char.ofNat 12 := by rw [← Char.ofNat_toNat c, h6]
    subst hc
    rw [show encChar (Char.ofNat 12) ++ rest = '\\' :: 'f' :: rest from rfl,
      parseStrBody.eq_2, if_neg (by decide), if_pos rfl, parseEsc.eq_2, if_neg (by decide),
      show escChar 'f' = some (Char.ofNat 12) from rfl]
  by_cases h7 : c.toNat = 13
  · have hc : c = Char.ofNat 13 := by rw [← Char.ofNat_toNat c, h7]
    subst hc
    rw [show encChar (Char.ofNat 13) ++ rest = '\\' :: 'r' :: rest from rfl,
      parseStrBody.eq_2, if_neg (by decide), if_pos rfl, parseEsc.eq_2, if_neg (by decide),
      show escChar 'r' = some (Char.ofNat 13) from rfl]
  by_cases h8 : c.toNat < 32
  · have henc : encChar c ++ rest =
        '\\' :: 'u' :: Nat.digitChar (c.toNat / 4096 % 16) ::
          Nat.digitChar (c.toNat / 256 % 16) :: Nat.digitChar (c.toNat / 16 % 16) ::
          Nat.digitChar (c.toNat % 16) :: rest := by
      simp [encChar, h1, h2, h3, h4, h5, h6, h7, h8, hex4]
    rw [henc, parseStrBody.eq_2, if_neg (by decide), if_pos rfl, parseEsc.eq_2, if_pos rfl,
      parseHexEsc.eq_1, hexVal_digitChar _ (by omega), hexVal_digitChar _ (by omega),
      hexVal_digitChar _ (by omega), hexVal_digitChar _ (by omega)]
    have hn : ((c.toNat / 4096 % 16 * 16 + c.toNat / 256 % 16) * 16 + c.toNat / 16 % 16) * 16 +
        c.toNat % 16 = c.toNat := by omega
    simp only [hn]
    rw [if_pos (by omega : c.toNat < 55296 ∨ (57343 < c.toNat ∧ c.toNat < 65536)),
      Char.ofNat_toNat]
  by_cases h9 : c.toNat < 127
  · have henc : encChar c ++ rest = c :: rest := by
      simp [encChar, h1, h2, h3, h4, h5, h6, h7, h8, h9]
    rw [henc, parseStrBody.eq_2, if_neg h1, if_neg h2, if_pos (by omega : 32 ≤ c.toNat)]
  by_cases h10 : c.toNat < 65536
  · have henc : encChar c ++ rest =
        '\\' :: 'u' :: Nat.digitChar (c.toNat / 4096 % 16) ::
          Nat.digitChar (c.toNat / 256 % 16) :: Nat.digitChar (c.toNat / 16 % 16) ::
          Nat.digitChar (c.toNat % 16) :: rest := by
      simp [encChar, h1, h2, h3, h4, h5, h6, h7, h8, h9, h10, hex4]
    rw [henc, parseStrBody.eq_2, if_neg (by decide), if_pos rfl, parseEsc.eq_2, if_pos rfl,
      parseHexEsc.eq_1, hexVal_digitChar _ (by omega), hexVal_digitChar _ (by omega),
      hexVal_digitChar _ (by omega), hexVal_digitChar _ (by omega)]
    have hn : ((c.toNat / 4096 % 16 * 16 + c.toNat / 256 % 16) * 16 + c.toNat / 16 % 16) * 16 +
        c.toNat % 16 = c.toNat := by omega
    simp only [hn]
    rw [if_pos (by omega : c.toNat < 55296 ∨ (57343 < c.toNat ∧ c.toNat < 65536)),
      Char.ofNat_toNat]
  · have hub : c.toNat < 1114112 := by omega
    have henc : encChar c ++ rest =
        '\\' :: 'u' ::
          Nat.digitChar ((55296 + (c.toNat - 65536) / 1024) / 4096 % 16) ::
          Nat.digitChar ((55296 + (c.toNat - 65536) / 1024) / 256 % 16) ::
          Nat.digitChar ((55296 + (c.toNat - 65536) / 1024) / 16 % 16) ::
          Nat.digitChar ((55296 + (c.toNat - 65536) / 1024) % 16) ::
        '\\' :: 'u' ::
          Nat.digitChar ((56320 + (c.toNat - 65536) % 1024) / 4096 % 16) ::
          Nat.digitChar ((56320 + (c.toNat - 65536) % 1024) / 256 % 16) ::
          Nat.digitChar ((56320 + (c.toNat - 65536) % 1024) / 16 % 16) ::
          Nat.digitChar ((56320 + (c.toNat - 65536) % 1024) % 16) :: rest := by
      simp [encChar, h1, h2, h3, h4, h5, h6, h7, h8, h9, h10, hex4]
    rw [henc, parseStrBody.eq_2, if_neg (by decide), if_pos rfl, parseEsc.eq_2, if_pos rfl,
      parseHexEsc.eq_1, hexVal_digitChar _ (by omega), hexVal_digitChar _ (by omega),
      hexVal_digitChar _ (by omega), hexVal_digitChar _ (by omega)]
    have hn1 : (((55296 + (c.toNat - 65536) / 1024) / 4096 % 16 * 16 +
        (55296 + (c.toNat - 65536) / 1024) / 256 % 16) * 16 +
        (55296 + (c.toNat - 65536) / 1024) / 16 % 16) * 16 +
        (55296 + (c.toNat - 65536) / 1024) % 16 = 55296 + (c.toNat - 65536) / 1024 := by
      omega
    simp only [hn1]
    rw [if_neg (by omega), if_pos (by omega : 55296 + (c.toNat - 65536) / 1024 < 56320),
      parseLowSurrogate.eq_1, if_pos ⟨rfl, rfl⟩, hexVal_digitChar _ (by omega),
      hexVal_digitChar _ (by omega), hexVal_digitChar _ (by omega),
      hexVal_digitChar _ (by omega)]
    have hn2 : (((56320 + (c.toNat - 65536) % 1024) / 4096 % 16 * 16 +
        (56320 + (c.toNat - 65536) % 1024) / 256 % 16) * 16 +
        (56320 + (c.toNat - 65536) % 1024) / 16 % 16) * 16 +
        (56320 + (c.toNat - 65536) % 1024) % 16 = 56320 + (c.toNat - 65536) % 1024 := by
      omega
    simp only [hn2]
    rw [if_pos (by omega : 56320 ≤ 56320 + (c.toNat - 65536) % 1024 ∧
      56320 + (c.toNat - 65536) % 1024 < 57344)]
    have harg : 65536 + (55296 + (c.toNat - 65536) / 1024 - 55296) * 1024 +
        (56320 + (c.toNat - 65536) % 1024 - 56320) = c.toNat := by omega
    rw [harg, Char.ofNat_toNat]

/-- An encoded string body scans back to the original characters, leaving
the input after the closing quote. -/
theorem encChars_rt :
    ∀ l rest, parseStrBody (encChars l ++ ('\"' :: rest)) = some (l, rest) := by
  intro l
  induction l with
  | nil =>
    intro rest
    rw [show encChars [] ++ ('\"' :: rest) = '\"' :: rest from rfl,
      parseStrBody.eq_2, if_pos rfl]
  | cons c l ih =>
    intro rest
    rw [show encChars (c :: l) ++ ('\"' :: rest) =
        encChar c ++ (encChars l ++ ('\"' :: rest)) from by simp [encChars],
      encChar_rt, ih]
    rfl

/-- One dispatch step of the value scanner on a non-whitespace head. -/
theorem parseV_step (fuel : Nat) (c : Char) (r : List Char) (hc : isWs c = false) :
    parseV (fuel + 1) (c :: r) =
      (if c = 'n' then
        match dropLit ['u', 'l', 'l'] r with
        | some r2 => some (.null, r2)
        | none => none
      else if c = 't' then
        match dropLit ['r', 'u', 'e'] r with
        | some r2 => some (.bool true, r2)
        | none => none
      else if c = 'f' then
        match dropLit ['a', 'l', 's', 'e'] r with
        | some r2 => some (.bool false, r2)
        | none => none
      else if c = '\"' then
        match parseStrBody r with
        | some (cs1, rest) => some (.str (String.mk cs1), rest)
        | none => none
      else if c = '[' then
        match skipWs r with
        | [] => none
        | c2 :: r2 =>
          if c2 = ']' then some (.arr [], r2)
          else
            match parseV fuel (c2 :: r2) with
            | some (v, r3) =>
              match parseArrTail fuel r3 with
              | some (vs, r4) => some (.arr (v :: vs), r4)
              | none => none
            | none => none
      else if c = '\x7b' then
        match skipWs r with
        | [] => none
        | c2 :: r2 =>
          if c2 = '\x7d' then some (.obj [], r2)
          else if c2 = '\"' then
            match parseStrBody r2 with
            | some (kcs, r3) =>
              match skipWs r3 with
              | [] => none
              | c3 :: r4 =>
                if c3 = ':' then
                  match parseV fuel r4 with
                  | some (v, r5) =>
                    match parseObjTail fuel r5 with
                    | some (ps, r6) =>
                        some (.obj (buildDict ((String.mk kcs, v) :: ps)), r6)
                    | none => none
                  | none => none
                else none
            | none => none
          else none
      else if c = '-' then
        match parseNat r with
        | some (n, rest) => some (.num (-(n : Int)), rest)
        | none => none
      else if c.isDigit then
        match parseNat (c :: r) with
        | some (n, rest) => some (.num (n : Int), rest)
        | none => none
      else none) := by
  rw [parseV.eq_2, skipWs_cons_nonWs c r hc]

/-- One dispatch step of the array-tail scanner on a non-whitespace head. -/
theorem parseArrTail_step (fuel : Nat) (c : Char) (r : List Char) (hc : isWs c = false) :
    parseArrTail (fuel + 1) (c :: r) =
      (if c = ']' then some ([], r)
      else if c = ',' then
        match parseV fuel r with
        | some (v, r2) =>
          match parseArrTail fuel r2 with
          | some (vs, r3) => some (v :: vs, r3)
          | none => none
        | none => none
      else none) := by
  rw [parseArrTail.eq_2, skipWs_cons_nonWs c r hc]

/-- One dispatch step of the object-tail scanner on a non-whitespace head. -/
theorem parseObjTail_step (fuel : Nat) (c : Char) (r : List Char) (hc : isWs c = false) :
    parseObjTail (fuel + 1) (c :: r) =
      (if c = '\x7d' then some ([], r)
      else if c = ',' then
        match skipWs r with
        | [] => none
        | c2 :: r2 =>
          if c2 = '\"' then
            match parseStrBody r2 with
            | some (kcs, r3) =>
              match skipWs r3 with
              | [] => none
              | c3 :: r4 =>
                if c3 = ':' then
                  match parseV fuel r4 with
                  | some (v, r5) =>
                    match parseObjTail fuel r5 with
                    | some (ps, r6) => some ((String.mk kcs, v) :: ps, r6)
                    | none => none
                  | none => none
                else none
            | none => none
          else none
      else none) := by
  rw [parseObjTail.eq_2, skipWs_cons_nonWs c r hc]

/-- The serialized form of every value begins with a non-whitespace
character that is not a closing bracket. -/
theorem dumpsV_head (lvl : Nat) (v : Json) :
    ∃ c cs, dumpsV lvl v = c :: cs ∧ isWs c = false ∧ c ≠ ']' := by
  cases v with
  | null => exact ⟨'n', _, rfl, by decide, by decide⟩
  | bool b =>
    cases b with
    | true => exact ⟨'t', _, rfl, by decide, by decide⟩
    | false => exact ⟨'f', _, rfl, by decide, by decide⟩
  | num i =>
    cases i with
    | ofNat n =>
      obtain ⟨-, -, k, ds, hhead, hk10, -⟩ := natChars_spec n
      refine ⟨Nat.digitChar k, ds, ?_, (digitChar_facts k hk10).2.1,
        (digitChar_facts k hk10).2.2.2.2.2.2.2.2.2.1⟩
      rw [show dumpsV lvl (.num (.ofNat n)) = natChars n from rfl]
      exact hhead
    | negSucc m => exact ⟨'-', _, rfl, by decide, by decide⟩
  | str s => exact ⟨'\"', _, rfl, by decide, by decide⟩
  | arr xs =>
    cases xs with
    | nil => exact ⟨'[', _, rfl, by decide, by decide⟩
    | cons x xs => exact ⟨'[', _, rfl, by decide, by decide⟩
  | obj fs =>
    cases fs with
    | nil => exact ⟨'\x7b', _, rfl, by decide, by decide⟩
    | cons p fs =>
      obtain ⟨k, v⟩ := p
      exact ⟨'\x7b', _, rfl, by decide, by decide⟩

/-- What follows an array item in the serialized form cannot extend a
number literal. -/
theorem numBoundary_arr_rest (lvl lvl2 : Nat) (xs : List Json) (rest : List Char) :
    numBoundaryB (dumpsATail lvl xs ++ (nlIndent lvl2 ++ (']' :: rest))) = true := by
  cases xs with
  | nil => rfl
  | cons x xs => rfl

/-- What follows an object value in the serialized form cannot extend a
number literal. -/
theorem numBoundary_obj_rest (lvl lvl2 : Nat) (fs : List (String × Json)) (rest : List Char) :
    numBoundaryB (dumpsOTail lvl fs ++ (nlIndent lvl2 ++ ('\x7d' :: rest))) = true := by
  cases fs with
  | nil => rfl
  | cons p fs =>
    obtain ⟨k, v⟩ := p
    rfl

/-- Inserting a fresh key into a dict appends it. -/
theorem objUpd_fresh :
    ∀ (acc : List (String × Json)) (k : String) (v : Json),
      (∀ p ∈ acc, p.1 ≠ k) → objUpd acc k v = acc ++ [(k, v)] := by
  intro acc
  induction acc with
  | nil => intro k v h; rfl
  | cons q acc ih =>
    intro k v h
    obtain ⟨k0, v0⟩ := q
    have hne : k0 ≠ k := h (k0, v0) (by simp)
    simp only [objUpd, if_neg hne]
    rw [ih k v (fun p hp => h p (by simp [hp]))]
    rfl

/-- Folding fresh inserts over pairwise-distinct keys reproduces the
pair list. -/
theorem buildDict_loop :
    ∀ (l acc : List (String × Json)), keysNodup l = true →
      (∀ p ∈ l, ∀ q ∈ acc, q.1 ≠ p.1) →
      l.foldl (fun acc2 p => objUpd acc2 p.1 p.2) acc = acc ++ l := by
  intro l
  induction l with
  | nil => intro acc h1 h2; simp
  | cons p l ih =>
    intro acc h1 h2
    obtain ⟨k, v⟩ := p
    simp only [keysNodup, Bool.and_eq_true, Bool.not_eq_eq_eq_not, Bool.not_true,
      List.any_eq_false] at h1
    obtain ⟨hfresh, hnodup⟩ := h1
    simp only [List.foldl_cons]
    rw [objUpd_fresh acc k v (fun q hq => h2 (k, v) (by simp) q hq)]
    rw [ih (acc ++ [(k, v)]) hnodup ?_]
    · simp
    · intro p2 hp2 q hq
      rcases List.mem_append.mp hq with hq1 | hq1
      · exact h2 p2 (by simp [hp2]) q hq1
      · simp only [List.mem_singleton] at hq1
        subst hq1
        intro hcontra
        have h := hfresh p2 hp2
        rw [show p2.1 = k from hcontra.symm] at h
        simp at h

/-- `json.loads` reproduces a dict with pairwise-distinct keys verbatim. -/
theorem buildDict_nodup (l : List (String × Json)) (h : keysNodup l = true) :
    buildDict l = l := by
  unfold buildDict
  rw [buildDict_loop l [] h (by simp)]
  rfl

mutual

/-- The fuel needed to scan a serialized value is covered by its length
plus one. -/
theorem jfuelV_le (lvl : Nat) (v : Json) : jfuelV v ≤ (dumpsV lvl v).length + 1 := by
  cases v with
  | null => simp [jfuelV, dumpsV]
  | bool b => cases b <;> simp [jfuelV, dumpsV]
  | num i =>
    simp only [jfuelV]
    omega
  | str s =>
    simp only [jfuelV]
    omega
  | arr xs =>
    cases xs with
    | nil => simp [jfuelV, dumpsV]
    | cons x xs2 =>
      have h1 := jfuelV_le (lvl + 1) x
      have h2 := jfuelTA_le (lvl + 1) xs2
      simp only [jfuelV, dumpsV, List.length_cons, List.length_append, nlIndent,
        List.length_replicate]
      omega
  | obj fs =>
    cases fs with
    | nil => simp [jfuelV, dumpsV]
    | cons p fs2 =>
      obtain ⟨k, v2⟩ := p
      have h1 := jfuelV_le (lvl + 1) v2
      have h2 := jfuelTO_le (lvl + 1) fs2
      simp only [jfuelV, dumpsV, List.length_cons, List.length_append, nlIndent,
        List.length_replicate]
      omega

/-- The fuel needed to scan serialized array items is covered by their
serialized length plus one. -/
theorem jfuelTA_le (lvl : Nat) (xs : List Json) :
    jfuelTA xs ≤ (dumpsATail lvl xs).length + 1 := by
  cases xs with
  | nil => simp [jfuelTA, dumpsATail]
  | cons x xs2 =>
    have h1 := jfuelV_le lvl x
    have h2 := jfuelTA_le lvl xs2
    simp only [jfuelTA, dumpsATail, List.length_cons, List.length_append, nlIndent,
      List.length_replicate]
    omega

/-- The fuel needed to scan serialized object entries is covered by their
serialized length plus one. -/
theorem jfuelTO_le (lvl : Nat) (fs : List (String × Json)) :
    jfuelTO fs ≤ (dumpsOTail lvl fs).length + 1 := by
  cases fs with
  | nil => simp [jfuelTO, dumpsOTail]
  | cons p fs2 =>
    obtain ⟨k, v2⟩ := p
    have h1 := jfuelV_le lvl v2
    have h2 := jfuelTO_le lvl fs2
    simp only [jfuelTO, dumpsOTail, List.length_cons, List.length_append, nlIndent,
      List.length_replicate]
    omega

end

/-- What follows the items of a serialized array — whitespace and the
closing bracket — cannot extend a number literal. -/
theorem numBoundary_arr_ws (lvl : Nat) (xs : List Json) (ws rest : List Char)
    (hws : ∀ c ∈ ws, isWs c = true) :
    numBoundaryB (dumpsATail lvl xs ++ (ws ++ (']' :: rest))) = true := by
  cases xs with
  | cons x xs2 => rfl
  | nil =>
    cases ws with
    | nil => rfl
    | cons w ws2 =>
      have h := hws w (by simp)
      simp [isWs] at h
      rcases h with ((h | h) | h) | h <;> subst h <;> rfl

/-- What follows the entries of a serialized object — whitespace and the
closing brace — cannot extend a number literal. -/
theorem numBoundary_obj_ws (lvl : Nat) (fs : List (String × Json)) (ws rest : List Char)
    (hws : ∀ c ∈ ws, isWs c = true) :
    numBoundaryB (dumpsOTail lvl fs ++ (ws ++ ('\x7d' :: rest))) = true := by
  cases fs with
  | cons p fs2 =>
    obtain ⟨k, v⟩ := p
    rfl
  | nil =>
    cases ws with
    | nil => rfl
    | cons w ws2 =>
      have h := hws w (by simp)
      simp [isWs] at h
      rcases h with ((h | h) | h) | h <;> subst h <;> rfl

mutual

/-- Round trip of the scanner over the serializer: with enough fuel, a
well-formed value followed by a non-number-extending remainder scans back
to itself. -/
theorem rtV : ∀ (v : Json) (fuel lvl : Nat) (rest : List Char),
    jfuelV v ≤ fuel → wfV v = true → numBoundaryB rest = true →
    parseV fuel (dumpsV lvl v ++ rest) = some (v, rest) := by
  intro v fuel lvl rest hf hwf hb
  cases v with
  | null =>
    simp only [jfuelV] at hf
    cases fuel with
    | zero => omega
    | succ f =>
      rw [show dumpsV lvl Json.null ++ rest = 'n' :: 'u' :: 'l' :: 'l' :: rest from rfl,
        parseV_step f 'n' _ (by decide), if_pos rfl]
      rfl
  | bool b =>
    simp only [jfuelV] at hf
    cases fuel with
    | zero => omega
    | succ f =>
      cases b with
      | true =>
        rw [show dumpsV lvl (Json.bool true) ++ rest = 't' :: 'r' :: 'u' :: 'e' :: rest from rfl,
          parseV_step f 't' _ (by decide), if_neg (by decide), if_pos rfl]
        rfl
      | false =>
        rw [show dumpsV lvl (Json.bool false) ++ rest =
            'f' :: 'a' :: 'l' :: 's' :: 'e' :: rest from rfl,
          parseV_step f 'f' _ (by decide), if_neg (by decide), if_neg (by decide), if_pos rfl]
        rfl
  | num i =>
    simp only [jfuelV] at hf
    cases fuel with
    | zero => omega
    | succ f =>
      cases i with
      | ofNat n =>
        obtain ⟨-, -, k, ds, hhead, hk10, -⟩ := natChars_spec n
        have hd := digitChar_facts k hk10
        rw [show dumpsV lvl (Json.num (Int.ofNat n)) ++ rest = natChars n ++ rest from rfl,
          hhead, List.cons_append, parseV_step f _ _ hd.2.1, if_neg hd.2.2.1,
          if_neg hd.2.2.2.1, if_neg hd.2.2.2.2.1, if_neg hd.2.2.2.2.2.1,
          if_neg hd.2.2.2.2.2.2.1, if_neg hd.2.2.2.2.2.2.2.1, if_neg hd.2.2.2.2.2.2.2.2.1,
          if_pos hd.1,
          show Nat.digitChar k :: (ds ++ rest) = natChars n ++ rest from by
            rw [hhead, List.cons_append],
          parseNat_natChars n rest hb]
        rfl
      | negSucc m =>
        rw [show dumpsV lvl (Json.num (Int.negSucc m)) ++ rest =
            '-' :: (natChars (m + 1) ++ rest) from rfl,
          parseV_step f '-' _ (by decide), if_neg (by decide), if_neg (by decide),
          if_neg (by decide), if_neg (by decide), if_neg (by decide), if_neg (by decide),
          if_pos rfl, parseNat_natChars (m + 1) rest hb]
        rfl
  | str s =>
    simp only [jfuelV] at hf
    cases fuel with
    | zero => omega
    | succ f =>
      rw [show dumpsV lvl (Json.str s) ++ rest =
          '\"' :: ((encChars s.data ++ ['\"']) ++ rest) from rfl,
        List.append_assoc, show ['\"'] ++ rest = '\"' :: rest from rfl,
        parseV_step f '\"' _ (by decide), if_neg (by decide), if_neg (by decide),
        if_neg (by decide), if_pos rfl, encChars_rt s.data rest]
  | arr xs =>
    cases xs with
    | nil =>
      simp only [jfuelV] at hf
      cases fuel with
      | zero => omega
      | succ f =>
        rw [show dumpsV lvl (Json.arr []) ++ rest = '[' :: ']' :: rest from rfl,
          parseV_step f '[' _ (by decide), if_neg (by decide), if_neg (by decide),
          if_neg (by decide), if_neg (by decide), if_pos rfl,
          skipWs_cons_nonWs ']' rest (by decide)]
        rfl
    | cons x xs2 =>
      simp only [jfuelV] at hf
      cases fuel with
      | zero => omega
      | succ f =>
        simp only [wfV, wfA, Bool.and_eq_true] at hwf
        obtain ⟨hx, hxs⟩ := hwf
        obtain ⟨hc, hcs, hhead, hws, hne⟩ := dumpsV_head (lvl + 1) x
        simp only [dumpsV, List.cons_append, List.append_assoc, List.singleton_append,
          List.nil_append]
        rw [parseV_step f '[' _ (by decide), if_neg (by decide), if_neg (by decide),
          if_neg (by decide), if_neg (by decide), if_pos rfl,
          skipWs_ws_append _ _ (nlIndent_ws (lvl + 1)), hhead, List.cons_append,
          skipWs_cons_nonWs _ _ hws]
        simp only [if_neg hne]
        rw [show hc :: (hcs ++ (dumpsATail (lvl + 1) xs2 ++ (nlIndent lvl ++ (']' :: rest)))) =
            dumpsV (lvl + 1) x ++ (dumpsATail (lvl + 1) xs2 ++ (nlIndent lvl ++ (']' :: rest)))
            from by rw [hhead, List.cons_append]]
        simp only [rtV x f (lvl + 1) _ (by omega) hx
            (numBoundary_arr_ws (lvl + 1) xs2 (nlIndent lvl) rest (nlIndent_ws lvl)),
          rtA xs2 f (lvl + 1) (nlIndent lvl) rest (by omega) hxs (nlIndent_ws lvl)]
  | obj fs =>
    cases fs with
    | nil =>
      simp only [jfuelV] at hf
      cases fuel with
      | zero => omega
      | succ f =>
        rw [show dumpsV lvl (Json.obj []) ++ rest = '\x7b' :: '\x7d' :: rest from rfl,
          parseV_step f '\x7b' _ (by decide), if_neg (by decide), if_neg (by decide),
          if_neg (by decide), if_neg (by decide), if_neg (by decide), if_pos rfl,
          skipWs_cons_nonWs '\x7d' rest (by decide)]
        rfl
    | cons p fs2 =>
      obtain ⟨k, v2⟩ := p
      simp only [jfuelV] at hf
      cases fuel with
      | zero => omega
      | succ f =>
        simp only [wfV, wfO, keysNodup, Bool.and_eq_true] at hwf
        obtain ⟨⟨hfresh, hnodup⟩, hv2, hfs⟩ := hwf
        simp only [dumpsV, encStr, List.cons_append, List.append_assoc,
          List.singleton_append, List.nil_append]
        rw [parseV_step f '\x7b' _ (by decide), if_neg (by decide), if_neg (by decide),
          if_neg (by decide), if_neg (by decide), if_neg (by decide), if_pos rfl,
          skipWs_ws_append _ _ (nlIndent_ws (lvl + 1)),
          skipWs_cons_nonWs '\"' _ (by decide)]
        have hv := rtV v2 f (lvl + 1)
          (dumpsOTail (lvl + 1) fs2 ++ (nlIndent lvl ++ ('\x7d' :: rest)))
          (by omega) hv2
          (numBoundary_obj_ws (lvl + 1) fs2 (nlIndent lvl) rest (nlIndent_ws lvl))
        have ho := rtO fs2 f (lvl + 1) (nlIndent lvl) rest (by omega) hfs (nlIndent_ws lvl)
        have hsw : ∀ Y : List Char, skipWs (':' :: Y) = ':' :: Y :=
          fun Y => skipWs_cons_nonWs ':' Y (by decide)
        have hsp : ∀ Y : List Char, parseV f (' ' :: Y) = parseV f Y :=
          fun Y => parseV_ws_append f [' '] Y (by decide)
        simp only [Char.reduceEq, reduceIte, encChars_rt k.data, hsw, hsp,
          List.cons_append, List.append_assoc, List.singleton_append, List.nil_append,
          hv, ho]
        rw [buildDict_nodup _ (show keysNodup ((String.mk k.data, v2) :: fs2) = true from by
          simp only [keysNodup, Bool.and_eq_true]
          exact ⟨hfresh, hnodup⟩)]

/-- Round trip of the array-tail scanner: the serialized remaining items,
whitespace and the closing bracket scan back to the items. -/
theorem rtA : ∀ (xs : List Json) (fuel lvl : Nat) (ws rest : List Char),
    jfuelTA xs ≤ fuel → wfA xs = true → (∀ c ∈ ws, isWs c = true) →
    parseArrTail fuel (dumpsATail lvl xs ++ (ws ++ (']' :: rest))) = some (xs, rest) := by
  intro xs fuel lvl ws rest hf hwf hws
  cases xs with
  | nil =>
    simp only [jfuelTA] at hf
    cases fuel with
    | zero => omega
    | succ f =>
      rw [show dumpsATail lvl [] ++ (ws ++ (']' :: rest)) = ws ++ (']' :: rest) from rfl,
        parseArrTail.eq_2, skipWs_ws_append _ _ hws, skipWs_cons_nonWs ']' rest (by decide)]
      rfl
  | cons x xs2 =>
    simp only [jfuelTA] at hf
    cases fuel with
    | zero => omega
    | succ f =>
      simp only [wfA, Bool.and_eq_true] at hwf
      obtain ⟨hx, hxs⟩ := hwf
      simp only [dumpsATail, List.cons_append, List.append_assoc]
      rw [parseArrTail_step f ',' _ (by decide), if_neg (by decide), if_pos rfl,
        parseV_ws_append f (nlIndent lvl) _ (nlIndent_ws lvl)]
      simp only [rtV x f lvl _ (by omega) hx (numBoundary_arr_ws lvl xs2 ws rest hws),
        rtA xs2 f lvl ws rest (by omega) hxs hws]

/-- Round trip of the object-tail scanner: the serialized remaining
entries, whitespace and the closing brace scan back to the raw pairs. -/
theorem rtO : ∀ (fs : List (String × Json)) (fuel lvl : Nat) (ws rest : List Char),
    jfuelTO fs ≤ fuel → wfO fs = true → (∀ c ∈ ws, isWs c = true) →
    parseObjTail fuel (dumpsOTail lvl fs ++ (ws ++ ('\x7d' :: rest))) = some (fs, rest) := by
  intro fs fuel lvl ws rest hf hwf hws
  cases fs with
  | nil =>
    simp only [jfuelTO] at hf
    cases fuel with
    | zero => omega
    | succ f =>
      rw [show dumpsOTail lvl [] ++ (ws ++ ('\x7d' :: rest)) = ws ++ ('\x7d' :: rest) from rfl,
        parseObjTail.eq_2, skipWs_ws_append _ _ hws,
        skipWs_cons_nonWs '\x7d' rest (by decide)]
      rfl
  | cons p fs2 =>
    obtain ⟨k, v2⟩ := p
    simp only [jfuelTO] at hf
    cases fuel with
    | zero => omega
    | succ f =>
      simp only [wfO, Bool.and_eq_true] at hwf
      obtain ⟨hv2, hfs⟩ := hwf
      simp only [dumpsOTail, encStr, List.cons_append, List.append_assoc,
        List.singleton_append, List.nil_append]
      rw [parseObjTail_step f ',' _ (by decide), if_neg (by decide), if_pos rfl,
        skipWs_ws_append _ _ (nlIndent_ws lvl), skipWs_cons_nonWs '\"' _ (by decide)]
      have hv := rtV v2 f lvl (dumpsOTail lvl fs2 ++ (ws ++ ('\x7d' :: rest)))
        (by omega) hv2 (numBoundary_obj_ws lvl fs2 ws rest hws)
      have ho := rtO fs2 f lvl ws rest (by omega) hfs hws
      have hsw : ∀ Y : List Char, skipWs (':' :: Y) = ':' :: Y :=
        fun Y => skipWs_cons_nonWs ':' Y (by decide)
      have hsp : ∀ Y : List Char, parseV f (' ' :: Y) = parseV f Y :=
        fun Y => parseV_ws_append f [' '] Y (by decide)
      simp only [Char.reduceEq, reduceIte, encChars_rt k.data, hsw, hsp,
        List.cons_append, List.append_assoc, List.singleton_append, List.nil_append,
        hv, ho]

end

/-- `json.loads` inverts `json.dumps(indent=2)` on every value whose
objects have pairwise-distinct keys — which holds for everything obtained
from a Python dict. -/
theorem json_loads_dumps (v : Json) (h : wfV v = true) :
    json_loads (json_dumps v) = some v := by
  have hrt := rtV v ((dumpsV 0 v).length + 1) 0 [] (jfuelV_le 0 v) h rfl
  rw [List.append_nil] at hrt
  simp only [json_loads, json_dumps]
  rw [hrt]
  rfl

/-- C8: in `json` format, `format_output` prints exactly
`json.dumps(data, indent=2)` and has no exit side effect of its own, and
decoding that output with `json.loads` reproduces the original status
value with no field lost or altered — for every JSON value whose objects
have pairwise-distinct keys, the invariant every Python dict guarantees. -/
theorem json_format_roundtrip (v : Json) (sid : Option String)
    (h : wfV v = true) :
    format_output v "json" sid = some ⟨[json_dumps v], none⟩ ∧
    json_loads (json_dumps v) = some v :=
  ⟨rfl, json_loads_dumps v h⟩

theorem json_format_roundtrip_witness :
    format_output
        (mkStatus "completed" 3 2 1 (some "https://app.keystone/r/1")
          (some [("login flow", "completed", 120), ("checkout", "failed", 45)]))
        "json" (some "run-axK2") =
      some ⟨[json_dumps (mkStatus "completed" 3 2 1 (some "https://app.keystone/r/1")
          (some [("login flow", "completed", 120), ("checkout", "failed", 45)]))], none⟩ ∧
    json_loads (json_dumps (mkStatus "completed" 3 2 1 (some "https://app.keystone/r/1")
        (some [("login flow", "completed", 120), ("checkout", "failed", 45)]))) =
      some (mkStatus "completed" 3 2 1 (some "https://app.keystone/r/1")
        (some [("login flow", "completed", 120), ("checkout", "failed", 45)])) :=
  json_format_roundtrip
    (mkStatus "completed" 3 2 1 (some "https://app.keystone/r/1")
      (some [("login flow", "completed", 120), ("checkout", "failed", 45)]))
    (some "run-axK2") (by decide)
